import Mathlib

/-!
Verification of the layered settings registry in `proplot/rcmod.py`.

The Python module implements `rc_configurator` (a registry over two backing
stores: matplotlib's `rcParams`, the "external store", and the instance
dictionary `_rcSpecial`, the "special store"), a table of "global" properties
(`rcGlobals` / `rcGlobals_children`) whose values fan out to concrete
parameters, and `rc_context`, a save/restore scope.

This file is a shallow embedding of that module:
 * Python dicts become ordered association lists (`AList`): assignment to an
   existing key updates the value in place, assignment to a new key appends,
   which is exactly CPython's insertion-order semantics.
 * Values become the inductive `RVal`.  Numbers are modelled as rationals.
   The colour-cycler built by the external `cycler`/`colortools`
   collaborators is modelled as the opaque constructor `RVal.cycler` applied
   to the requested palette value; the push of the new cycle onto open
   figures is a side effect outside the settings stores and has no
   observable effect on the registry state, so it is not part of the state.
 * Python exceptions become an `Option Err` component of every mutation's
   result.  A mutating operation returns the state reached so far together
   with the error, because the real object is mutated in place and an
   exception does not roll anything back.
 * `re.match(f'^{key}$', cat)` / `re.search(f'^{key}\.', cat)`: the queried
   key is spliced into a regular expression, so a literal `.` inside the key
   matches any character of the category.  The keys occurring in this module
   contain no regex metacharacters other than `.`, so the pattern is a
   sequence of single-character matchers; `rxFull` and `rxPreDot` implement
   exactly that.
-/

namespace Rcmod

/-- A Python value as stored in the two settings stores.  Numbers (ints and
floats) are modelled as rationals; `tup` models the colour tuples of the
default tables; `cycler v` is the opaque colour-cycle object built from the
user value `v` by the external `cycler`/`colortools` collaborators;
`rdict` is a dictionary value (used by the batch branch of `__setitem__`). -/
inductive RVal where
  | num (q : ℚ)
  | str (s : String)
  | bool (b : Bool)
  | tup (l : List ℚ)
  | null
  | cycler (v : RVal)
  | rdict (m : List (String × RVal))

/-- `isinstance(value, dict)`. -/
def RVal.isDict : RVal → Bool
  | .rdict _ => true
  | _ => false

/-- The errors raised by the module.  `unknownKey k` is
`ValueError(f'Invalid key "{k}".')` (raised by `__getitem__` on a scan with
zero matches, by global-property propagation, and by the direct-set branch);
`unknownKeyFor k cat` is `ValueError(f'Invalid key "{k}" for parameter
"{cat}".')` (batch branch); `keyError k` is a Python `KeyError` from `d[key]`
on a dictionary that lacks `key`; `typeError` is the `TypeError` from
multiplying non-numeric values in the derived-parameter computation. -/
inductive Err where
  | unknownKey (k : String)
  | unknownKeyFor (k cat : String)
  | keyError (k : String)
  | typeError
  deriving DecidableEq

/-- The spec's `UnknownKey` error kind: both `ValueError` messages. -/
def Err.isUnknownKey : Err → Bool
  | .unknownKey _ => true
  | .unknownKeyFor _ _ => true
  | _ => false

/-- An ordered association list modelling a Python dict. -/
abbrev AList := List (String × RVal)

/-- First value stored at `k`. -/
def alookup : AList → String → Option RVal
  | [], _ => none
  | (a, b) :: t, k => if a = k then some b else alookup t k

/-- `d[k] = v` on a Python dict: update in place if the key is present,
append otherwise. -/
def aset : AList → String → RVal → AList
  | [], k, v => [(k, v)]
  | (a, b) :: t, k, v => if a = k then (a, v) :: t else (a, b) :: aset t k v

/-- `{**a, **b}`: keys of `a` in order, values overridden by `b`, then the
new keys of `b` in order. -/
def dmerge (a b : AList) : AList :=
  b.foldl (fun acc p => aset acc p.1 p.2) a

/-- Two-store resolution used by the claims: the external store first, the
special store second (this is the order in which both `__getitem__`'s exact
match and `__setitem__`'s write-through consult the stores). -/
def lookup2 (params special : AList) (k : String) : Option RVal :=
  match alookup params k with
  | some v => some v
  | none => alookup special k

/-- Full anchored match of `re.match(f'^{key}$', cat)`: each pattern
character matches itself, a literal `.` in the key matches any character. -/
def rxFull : List Char → List Char → Bool
  | [], [] => true
  | p :: ps, c :: cs => (p = '.' || p = c) && rxFull ps cs
  | _, _ => false

/-- Match of `re.search(f'^{key}\.', cat)`: the category starts with the
key-pattern followed by a literal dot (after which anything may follow). -/
def rxPreDot : List Char → List Char → Bool
  | [], '.' :: _ => true
  | [], _ => false
  | _ :: _, [] => false
  | p :: ps, c :: cs => (p = '.' || p = c) && rxPreDot ps cs

/-- The static `rcGlobals` table (default value of every global property). -/
def rcGlobalsT : AList :=
  [("color", .str "k"),
   ("facecolor", .str "w"),
   ("small", .num 8),
   ("large", .num 9),
   ("linewidth", .num (3/5)),
   ("bottom", .bool true),
   ("top", .bool false),
   ("left", .bool true),
   ("right", .bool false),
   ("ticklen", .num 4),
   ("tickpad", .num 2),
   ("inout", .str "out"),
   ("fontname", .str "DejaVu Sans"),
   ("tickratio", .num (1/2)),
   ("minorwidth", .num (4/5))]

/-- The static `rcGlobals_children` table: global property → the concrete
keys it controls. -/
def rcChildrenT : List (String × List String) :=
  [("color", ["axes.labelcolor", "axes.edgecolor", "xtick.color", "ytick.color"]),
   ("facecolor", ["axes.facecolor"]),
   ("small", ["font.size", "xtick.labelsize", "ytick.labelsize", "axes.labelsize", "legend.fontsize"]),
   ("large", ["abc.fontsize", "figure.titlesize", "axes.titlesize"]),
   ("linewidth", ["axes.linewidth", "grid.linewidth", "xtick.major.width", "ytick.major.width"]),
   ("fontname", ["font.sans-serif"]),
   ("bottom", ["xtick.major.bottom", "xtick.minor.bottom"]),
   ("top", ["xtick.major.top", "xtick.minor.top"]),
   ("left", ["ytick.major.left", "ytick.minor.left"]),
   ("right", ["ytick.major.right", "ytick.minor.right"]),
   ("ticklen", ["xtick.major.size", "ytick.major.size"]),
   ("inout", ["xtick.direction", "ytick.direction"]),
   ("tickpad", ["xtick.major.pad", "xtick.minor.pad", "ytick.major.pad", "ytick.minor.pad"])]

/-- `{alias for alias,names in rcGlobals_children.items() if key in names}`:
the owning global of a concrete child key.  The child lists of the static
table are pairwise disjoint, so the set has at most one element and the
`set.pop()` of the source is deterministic. -/
def childOwner (key : String) : Option String :=
  (rcChildrenT.find? (fun p => p.2.contains key)).map Prod.fst

/-- The alias-resolution step at the top of `__setitem__`. -/
def resolveKey (key : String) : String :=
  (childOwner key).getD key

/-- `rcGlobals_children.get(key, [])`. -/
def childrenOf (key : String) : List String :=
  ((rcChildrenT.find? (fun p => p.1 = key)).map Prod.snd).getD []

/-- The static `rcSpecial` table (the special store's initial contents).
`abc.fontsize` is initialised to `rcGlobals['large']` and
`gridminor.linewidth` to `rcGlobals['linewidth']*rcGlobals['minorwidth']`,
exactly as in the source. -/
def rcSpecialT : AList :=
  [("abc.fontsize", .num 9),
   ("gridminor.linewidth", .num (3/5 * (4/5))),
   ("axes.facehatch", .null),
   ("abc.weight", .str "bold"),
   ("gridminor.color", .str "k"),
   ("gridminor.alpha", .num (1/10)),
   ("gridminor.linestyle", .str "-"),
   ("land.linewidth", .num 0),
   ("land.color", .str "k"),
   ("ocean.linewidth", .num 0),
   ("ocean.color", .str "w"),
   ("coastline.linewidth", .num 1),
   ("lonlatlines.linewidth", .num 1),
   ("lonlatlines.linestyle", .str "--"),
   ("lonlatlines.alpha", .num (2/5)),
   ("lonlatlines.color", .str "k"),
   ("subplots.title", .num (1/10)),
   ("subplots.inner", .num (1/5)),
   ("subplots.legend", .num (1/4)),
   ("subplots.cbar", .num (17/100)),
   ("subplots.ylab", .num (7/10)),
   ("subplots.xlab", .num (11/20)),
   ("subplots.nolab", .num (3/20))]

/-- The static `rcDefaults` table, written through to the external store at
construction. -/
def rcDefaultsT : AList :=
  [("figure.dpi", .num 90),
   ("figure.facecolor", .tup [19/20, 19/20, 19/20, 1]),
   ("figure.max_open_warning", .num 0),
   ("figure.autolayout", .bool false),
   ("figure.titleweight", .str "bold"),
   ("savefig.facecolor", .tup [1, 1, 1, 1]),
   ("savefig.transparent", .bool true),
   ("savefig.dpi", .num 300),
   ("savefig.pad_inches", .num 0),
   ("savefig.directory", .str ""),
   ("savefig.bbox", .str "standard"),
   ("savefig.format", .str "pdf"),
   ("axes.facecolor", .tup [1, 1, 1, 1]),
   ("axes.xmargin", .num 0),
   ("axes.ymargin", .num (1/20)),
   ("axes.titleweight", .str "normal"),
   ("axes.labelweight", .str "normal"),
   ("axes.grid", .bool true),
   ("axes.labelpad", .num 3),
   ("axes.titlepad", .num 3),
   ("axes.axisbelow", .bool false),
   ("xtick.minor.visible", .bool true),
   ("ytick.minor.visible", .bool true),
   ("grid.color", .str "k"),
   ("grid.alpha", .num (1/10)),
   ("grid.linestyle", .str "-"),
   ("grid.linewidth", .num (3/5)),
   ("font.family", .str "sans-serif"),
   ("font.sans-serif", .str "DejaVu Sans"),
   ("mathtext.default", .str "regular"),
   ("mathtext.bf", .str "sans:bold"),
   ("mathtext.it", .str "sans:it"),
   ("text.latex.preamble", .str "\\usepackage{cmbright}"),
   ("image.cmap", .str "sunset"),
   ("image.lut", .num 256),
   ("patch.facecolor", .str "C0"),
   ("patch.edgecolor", .str "k"),
   ("patch.linewidth", .num 1),
   ("hatch.color", .str "k"),
   ("hatch.linewidth", .num 1),
   ("markers.fillstyle", .str "full"),
   ("scatter.marker", .str "o"),
   ("lines.linewidth", .num (13/10)),
   ("lines.color", .str "C0"),
   ("lines.markeredgewidth", .num 0),
   ("lines.markersize", .num 3),
   ("lines.dash_joinstyle", .str "miter"),
   ("lines.dash_capstyle", .str "projecting"),
   ("lines.solid_joinstyle", .str "miter"),
   ("lines.solid_capstyle", .str "projecting"),
   ("legend.fancybox", .bool false),
   ("legend.frameon", .bool false),
   ("legend.labelspacing", .num (1/2)),
   ("legend.handletextpad", .num (1/2)),
   ("legend.handlelength", .num (3/2)),
   ("legend.columnspacing", .num 1),
   ("legend.facecolor", .str "w"),
   ("legend.numpoints", .num 1),
   ("legend.borderpad", .num (1/2)),
   ("legend.borderaxespad", .num 0)]

/-- The mutable state of the `rc_configurator` singleton: the external store
(matplotlib's `rcParams`), the special store (`self._rcSpecial`), the global
table (`self._rcGlobals`) and the `self._init` display flag. -/
structure RcState where
  rcParams : AList
  rcSpecial : AList
  rcGlobals : AList
  flagInit : Bool

/-- What `__getitem__` can return: a single parameter value, or an
`AttributeDict` mapping (the full merged view for the empty key, or the
collected subcategory view). -/
inductive GetRes where
  | val (v : RVal)
  | dict (m : AList)

/-- One pass of `__getitem__`'s scan loop over one store `d` (whose entries
are iterated as `l`), carrying the `params` accumulator.  An exact regex
match returns `d[key]` immediately — indexed with the *original* key, which
is a `KeyError` when the regex matched a category different from `key`
itself (`.inl (alookup d key)`, with `none` marking the `KeyError`).
Otherwise categories matching `^key\.` contribute their remainder to the
accumulator when that remainder is a nonempty single component. -/
def scanGo (key : String) (d : AList) : List (String × RVal) → AList → Sum (Option RVal) AList
  | [], acc => .inr acc
  | (cat, v) :: rest, acc =>
    if rxFull key.data cat.data then .inl (alookup d key)
    else if rxPreDot key.data cat.data then
      let sub : String := ⟨cat.data.drop (key.data.length + 1)⟩
      scanGo key d rest (if sub ≠ "" && !sub.data.contains '.' then aset acc sub v else acc)
    else scanGo key d rest acc

/-- `rc_configurator.__getitem__`. -/
def getItem (σ : RcState) (key : String) : Except Err GetRes :=
  if key = "" then .ok (.dict (dmerge σ.rcParams σ.rcSpecial))
  else
    match alookup σ.rcGlobals key with
    | some v => .ok (.val v)
    | none =>
      match scanGo key σ.rcParams σ.rcParams [] with
      | .inl (some v) => .ok (.val v)
      | .inl none => .error (.keyError key)
      | .inr acc =>
        match scanGo key σ.rcSpecial σ.rcSpecial acc with
        | .inl (some v) => .ok (.val v)
        | .inl none => .error (.keyError key)
        | .inr acc₂ =>
          if acc₂.isEmpty then .error (.unknownKey key) else .ok (.dict acc₂)

/-- Python numeric multiplication, as used for the derived tick parameters.
Only number-by-number multiplication is meaningful here; any other operand
combination raises `TypeError` in the source's value domain (string
repetition by an integer and bool arithmetic do not occur: the registry's
numeric globals hold numbers). -/
def rmul : RVal → RVal → Except Err RVal
  | .num a, .num b => .ok (.num (a * b))
  | _, _ => .error .typeError

/-- The `ticklen`/`tickratio` block of the global branch: recompute
`xtick.minor.size` and `ytick.minor.size` as `ticklen*ratio`, where the
just-set value is used for whichever global was set and the other is read
from the (already updated) global table. -/
def tickSizeOperands (σ : RcState) (key : String) (v : RVal) : Except Err (RVal × RVal) :=
  if key = "tickratio" then
    match alookup σ.rcGlobals "ticklen" with
    | none => .error (.keyError "ticklen")
    | some t => .ok (t, v)
  else
    match alookup σ.rcGlobals "tickratio" with
    | none => .error (.keyError "tickratio")
    | some r => .ok (v, r)

def tickSize (σ : RcState) (key : String) (v : RVal) : RcState × Option Err :=
  if key = "ticklen" || key = "tickratio" then
    match tickSizeOperands σ key v with
    | .error e => (σ, some e)
    | .ok (t, r) =>
      match rmul t r with
      | .error e => (σ, some e)
      | .ok p =>
        ({σ with rcParams := aset (aset σ.rcParams "xtick.minor.size" p) "ytick.minor.size" p}, none)
  else (σ, none)

/-- The `linewidth`/`minorwidth` block: recompute `xtick.minor.width`,
`ytick.minor.width` (external store) and `gridminor.linewidth` (special
store) as `tickwidth*ratio`. -/
def tickWidthOperands (σ : RcState) (key : String) (v : RVal) : Except Err (RVal × RVal) :=
  if key = "linewidth" then
    match alookup σ.rcGlobals "minorwidth" with
    | none => .error (.keyError "minorwidth")
    | some r => .ok (v, r)
  else
    match alookup σ.rcGlobals "linewidth" with
    | none => .error (.keyError "linewidth")
    | some t => .ok (t, v)

def tickWidth (σ : RcState) (key : String) (v : RVal) : RcState × Option Err :=
  if key = "linewidth" || key = "minorwidth" then
    match tickWidthOperands σ key v with
    | .error e => (σ, some e)
    | .ok (t, r) =>
      match rmul t r with
      | .error e => (σ, some e)
      | .ok p =>
        ({σ with rcParams := aset (aset σ.rcParams "xtick.minor.width" p) "ytick.minor.width" p,
                 rcSpecial := aset σ.rcSpecial "gridminor.linewidth" p}, none)
  else (σ, none)

/-- The child write-through loop of the global branch: each child key is
written to the external store if present there, else to the special store if
present there, else `ValueError(f'Invalid key "{name}".')` aborts the loop
(leaving the earlier writes in place). -/
def propagate (σ : RcState) (v : RVal) : List String → RcState × Option Err
  | [] => (σ, none)
  | name :: rest =>
    if (alookup σ.rcParams name).isSome then
      propagate {σ with rcParams := aset σ.rcParams name v} v rest
    else if (alookup σ.rcSpecial name).isSome then
      propagate {σ with rcSpecial := aset σ.rcSpecial name v} v rest
    else (σ, some (.unknownKey name))

/-- The direct-scalar branch of `__setitem__`. -/
def directSet (σ : RcState) (key : String) (v : RVal) : RcState × Option Err :=
  if (alookup σ.rcParams key).isSome then
    ({σ with rcParams := aset σ.rcParams key v, flagInit := false}, none)
  else if (alookup σ.rcSpecial key).isSome then
    ({σ with rcSpecial := aset σ.rcSpecial key v, flagInit := false}, none)
  else (σ, some (.unknownKey key))

/-- The batch (dict-valued) branch of `__setitem__`: each entry is applied
in iteration order to the composed key `f'{key}.{name}'`; a composed key
present in neither store raises `ValueError(f'Invalid key "{name}" for
parameter "{key}".')`, leaving the earlier writes of the batch applied. -/
def batchGo (key : String) : RcState → List (String × RVal) → RcState × Option Err
  | σ, [] => ({σ with flagInit := false}, none)
  | σ, (n, v) :: rest =>
    if (alookup σ.rcParams (key ++ "." ++ n)).isSome then
      batchGo key {σ with rcParams := aset σ.rcParams (key ++ "." ++ n) v} rest
    else if (alookup σ.rcSpecial (key ++ "." ++ n)).isSome then
      batchGo key {σ with rcSpecial := aset σ.rcSpecial (key ++ "." ++ n) v} rest
    else (σ, some (.unknownKeyFor (key ++ "." ++ n) key))

/-- Exception sequencing: run `f` on the state reached by `r` unless `r`
raised, in which case the exception propagates (with the partially mutated
state, since the Python object is mutated in place). -/
def andThen (r : RcState × Option Err) (f : RcState → RcState × Option Err) :
    RcState × Option Err :=
  match r with
  | (σ, some e) => (σ, some e)
  | (σ, none) => f σ

/-- The global branch of `__setitem__`: store the scalar in the global
table, run the two derived-parameter blocks, then write the value through to
every child key. -/
def setGlobal (σ : RcState) (key : String) (v : RVal) : RcState × Option Err :=
  andThen (tickSize {σ with rcGlobals := aset σ.rcGlobals key v} key v) fun σb =>
    andThen (tickWidth σb key v) fun σc =>
      andThen (propagate σc v (childrenOf key)) fun σd =>
        ({σd with flagInit := false}, none)

/-- `__setitem__` after alias resolution, for a resolved key other than
`'cycle'`: the global branch if the key is in the instance global table,
else the direct branch for non-dict values, else the batch branch. -/
def setCore (σ : RcState) (key : String) (v : RVal) : RcState × Option Err :=
  if (alookup σ.rcGlobals key).isSome then setGlobal σ key v
  else
    match v with
    | .rdict m => batchGo key σ m
    | _ => directSet σ key v

/-- `rc_configurator.__setitem__`.  The alias-resolution step replaces a key
appearing in some global's child list by that global.  The `'cycle'` branch
resolves colours through the external `colortools` collaborator and assigns
the resulting cycler to `self['axes.prop_cycle']` twice (first the baseline
`'colorblind'` palette, then the requested value); both assignments are the
recursive `__setitem__` call, embedded here as `setCore` on the resolved key
(`'axes.prop_cycle'` is not in any child list, so its resolution is itself).
The push of the cycle onto all open figures' axes touches no registry
state. -/
def setItem (σ : RcState) (key : String) (v : RVal) : RcState × Option Err :=
  if resolveKey key = "cycle" then
    andThen (setCore σ (resolveKey "axes.prop_cycle") (RVal.cycler (RVal.str "colorblind")))
      fun σ₁ =>
        andThen (setCore σ₁ (resolveKey "axes.prop_cycle") (RVal.cycler v)) fun σ₂ =>
          ({σ₂ with flagInit := false}, none)
  else setCore σ (resolveKey key) v

/-- Apply a list of key/value pairs through `__setitem__` in order,
stopping at (and reporting) the first exception, as a Python `for` loop
over a mutable singleton does. -/
def setSeq (σ : RcState) : List (String × RVal) → RcState × Option Err
  | [] => (σ, none)
  | (k, v) :: rest => andThen (setItem σ k v) fun σ' => setSeq σ' rest

/-- The state captured by `rc_context.__init__`: the `_nochange` fast path
when the combined override mapping is empty, otherwise copies of the two
stores (and the overrides themselves).  The axes handle is retained by the
source but never used by the logic and is omitted. -/
structure RcCtx where
  nochange : Bool
  kwargs : AList
  special : AList
  rcparams : AList

/-- `rc_context.__init__` with the combined override mapping `kwargs`. -/
def ctxInit (σ : RcState) (kwargs : AList) : RcCtx :=
  if kwargs.isEmpty then ⟨true, [], [], []⟩
  else ⟨false, kwargs, σ.rcSpecial, σ.rcParams⟩

/-- `rc_context.__enter__`: apply every override through `__setitem__`. -/
def ctxEnter (c : RcCtx) (σ : RcState) : RcState × Option Err :=
  if c.nochange then (σ, none) else setSeq σ c.kwargs

/-- `rc_context.__exit__`: unconditionally replay the merged snapshot
(`{**self._rcparams, **self._special}`, special entries layered over
external entries) through `__setitem__`.  The second component is the
truthiness of `__exit__`'s return value: the method returns `None`, so it
is always `false` and a pending exception is never suppressed. -/
def ctxExit (c : RcCtx) (σ : RcState) : (RcState × Option Err) × Bool :=
  ((if c.nochange then (σ, none) else setSeq σ (dmerge c.rcparams c.special)), false)

/-- The external store's baseline after `style.use('default')`: matplotlib
default values for the concrete keys this module touches that are not in
`rcDefaults` (child keys of the globals and the derived minor-tick
parameters).  The external store is an opaque collaborator; only the
presence of these keys matters to the registry logic, their baseline values
are matplotlib's. -/
def rcParamsBase : AList :=
  [("axes.prop_cycle", .cycler (.str "default")),
   ("xtick.minor.size", .num 2),
   ("ytick.minor.size", .num 2),
   ("xtick.minor.width", .num (3/5)),
   ("ytick.minor.width", .num (3/5)),
   ("xtick.major.size", .num (7/2)),
   ("ytick.major.size", .num (7/2)),
   ("xtick.major.width", .num (4/5)),
   ("ytick.major.width", .num (4/5)),
   ("axes.linewidth", .num (4/5)),
   ("axes.labelcolor", .str "black"),
   ("axes.edgecolor", .str "black"),
   ("xtick.color", .str "black"),
   ("ytick.color", .str "black"),
   ("font.size", .num 10),
   ("xtick.labelsize", .str "medium"),
   ("ytick.labelsize", .str "medium"),
   ("axes.labelsize", .str "medium"),
   ("legend.fontsize", .str "medium"),
   ("figure.titlesize", .str "large"),
   ("axes.titlesize", .str "large"),
   ("xtick.major.bottom", .bool true),
   ("xtick.minor.bottom", .bool true),
   ("xtick.major.top", .bool true),
   ("xtick.minor.top", .bool true),
   ("ytick.major.left", .bool true),
   ("ytick.minor.left", .bool true),
   ("ytick.major.right", .bool true),
   ("ytick.minor.right", .bool true),
   ("xtick.direction", .str "out"),
   ("ytick.direction", .str "out"),
   ("xtick.major.pad", .num (7/2)),
   ("xtick.minor.pad", .num (17/5)),
   ("ytick.major.pad", .num (7/2)),
   ("ytick.minor.pad", .num (17/5))]

/-- `rc_configurator.__init__`: reset the external store to its baseline,
copy the static special and global tables, write `rcDefaults` through to the
external store, set the colour cycle, then set every global through the
normal `__setitem__` path; finally mark the registry as being in its initial
state. -/
def rcInitRun : RcState × Option Err :=
  let σ : RcState :=
    ⟨rcDefaultsT.foldl (fun acc p => aset acc p.1 p.2) rcParamsBase,
     rcSpecialT, rcGlobalsT, true⟩
  andThen (setItem σ "cycle" (RVal.str "colorblind")) fun σ₁ => setSeq σ₁ rcGlobalsT

/-- The registry state right after construction (`rc = rc_configurator()`). -/
def rc0 : RcState :=
  {rcInitRun.1 with flagInit := true}

/-! ### Association-list lemmas -/

theorem alookup_aset_self (m : AList) (k : String) (v : RVal) :
    alookup (aset m k v) k = some v := by
  induction m with
  | nil => simp [aset, alookup]
  | cons p t ih =>
    by_cases h : p.1 = k
    · simp [aset, h, alookup]
    · simp [aset, h, alookup, ih]

theorem alookup_aset_ne (m : AList) (k k' : String) (v : RVal) (h : k' ≠ k) :
    alookup (aset m k v) k' = alookup m k' := by
  have h' : ¬ k = k' := fun hh => h hh.symm
  induction m with
  | nil => simp [aset, alookup, h']
  | cons p t ih =>
    by_cases hp : p.1 = k
    · simp [aset, hp, alookup, h']
    · by_cases hp' : p.1 = k'
      · simp [aset, hp, alookup, hp', h, h']
      · simp [aset, hp, alookup, hp', ih]

theorem aset_keys_of_mem (m : AList) (k : String) (v : RVal)
    (h : k ∈ m.map Prod.fst) : (aset m k v).map Prod.fst = m.map Prod.fst := by
  induction m with
  | nil => simp at h
  | cons p t ih =>
    by_cases hp : p.1 = k
    · simp [aset, hp]
    · have ht : k ∈ t.map Prod.fst := by
        simp only [List.map_cons, List.mem_cons] at h
        exact h.resolve_left (fun hh => hp hh.symm)
      simp [aset, hp, ih ht]

theorem alookup_isSome_iff (m : AList) (k : String) :
    (alookup m k).isSome = true ↔ k ∈ m.map Prod.fst := by
  induction m with
  | nil => simp [alookup]
  | cons p t ih =>
    by_cases hp : p.1 = k
    · simp [alookup, hp]
    · have h' : ¬ k = p.1 := fun hh => hp hh.symm
      simp [alookup, hp, ih, h']

theorem alookup_eq_none_iff (m : AList) (k : String) :
    alookup m k = none ↔ k ∉ m.map Prod.fst := by
  rw [← alookup_isSome_iff]
  cases alookup m k <;> simp

/-! ### Static-table facts -/

theorem globals_not_aliased : ∀ g ∈ rcGlobalsT.map Prod.fst, childOwner g = none := by decide

theorem globals_ne_cycle : ∀ g ∈ rcGlobalsT.map Prod.fst, g ≠ "cycle" := by decide

theorem owners_not_aliased : ∀ p ∈ rcChildrenT, childOwner p.1 = none := by decide

theorem owners_ne_cycle : ∀ p ∈ rcChildrenT, p.1 ≠ "cycle" := by decide

theorem childOwner_mem (k g : String) (h : childOwner k = some g) :
    ∃ p ∈ rcChildrenT, p.1 = g ∧ k ∈ p.2 := by
  unfold childOwner at h
  rcases Option.map_eq_some'.1 h with ⟨p, hp, hg⟩
  exact ⟨p, List.mem_of_find?_eq_some hp,
    hg, by simpa using List.find?_some hp⟩

theorem resolveKey_ne_cycle (k : String) (h : k ≠ "cycle") : resolveKey k ≠ "cycle" := by
  unfold resolveKey
  cases hc : childOwner k with
  | none => simpa using h
  | some g =>
    rcases childOwner_mem k g hc with ⟨p, hp, hpg, -⟩
    simpa [hpg] using owners_ne_cycle p hp

theorem resolveKey_of_owner (k g : String) (h : childOwner k = some g) :
    resolveKey k = g := by simp [resolveKey, h]

theorem resolveKey_global (g : String) (hg : g ∈ rcGlobalsT.map Prod.fst) :
    resolveKey g = g := by simp [resolveKey, globals_not_aliased g hg]

theorem childrenOf_mem (g ci : String) (h : ci ∈ childrenOf g) :
    ∃ p ∈ rcChildrenT, p.1 = g ∧ ci ∈ p.2 := by
  unfold childrenOf at h
  cases hf : rcChildrenT.find? (fun p => p.1 = g) with
  | none => simp [hf] at h
  | some p =>
    refine ⟨p, List.mem_of_find?_eq_some hf, ?_, by simpa [hf] using h⟩
    simpa using List.find?_some hf

theorem children_not_globals :
    ∀ p ∈ rcChildrenT, ∀ c ∈ p.2, c ∉ rcGlobalsT.map Prod.fst ∧ c ≠ "" ∧ c ≠ "cycle" := by
  decide

/-! ### Scan lemmas: the store scan of `__getitem__` on a clean key -/

theorem rxFull_refl : ∀ l : List Char, rxFull l l = true
  | [] => rfl
  | c :: cs => by simp [rxFull, rxFull_refl cs]

theorem scanGo_inl_of_mem (key : String) (d : AList) :
    ∀ l : List (String × RVal),
      (∀ cat ∈ l.map Prod.fst, rxFull key.data cat.data = true → cat = key) →
      key ∈ l.map Prod.fst →
      ∀ acc, scanGo key d l acc = .inl (alookup d key) := by
  intro l
  induction l with
  | nil => intro _ hmem; simp at hmem
  | cons p t ih =>
    intro hclean hmem acc
    obtain ⟨c, w⟩ := p
    by_cases hc : c = key
    · subst hc
      simp [scanGo, rxFull_refl]
    · have hrx : rxFull key.data c.data = false := by
        cases hrx : rxFull key.data c.data
        · rfl
        · exact absurd (hclean c (by simp) hrx) hc
      have hmem' : key ∈ t.map Prod.fst := by
        simp only [List.map_cons, List.mem_cons] at hmem
        exact hmem.resolve_left (fun hh => hc hh.symm)
      have hclean' : ∀ cat ∈ t.map Prod.fst, rxFull key.data cat.data = true → cat = key :=
        fun cat hcat => hclean cat (by simp [hcat])
      by_cases hpre : rxPreDot key.data c.data
      · simp [scanGo, hrx, hpre, ih hclean' hmem']
      · simp [scanGo, hrx, hpre, ih hclean' hmem']

theorem scanGo_inr_of_not_mem (key : String) (d : AList) :
    ∀ l : List (String × RVal),
      (∀ cat ∈ l.map Prod.fst, rxFull key.data cat.data = true → cat = key) →
      key ∉ l.map Prod.fst →
      ∀ acc, ∃ acc', scanGo key d l acc = .inr acc' := by
  intro l
  induction l with
  | nil => intro _ _ acc; exact ⟨acc, rfl⟩
  | cons p t ih =>
    intro hclean hmem acc
    obtain ⟨c, w⟩ := p
    have hc : c ≠ key := fun hh => hmem (by simp [hh])
    have hrx : rxFull key.data c.data = false := by
      cases hrx : rxFull key.data c.data
      · rfl
      · exact absurd (hclean c (by simp) hrx) hc
    have hmem' : key ∉ t.map Prod.fst := fun hh => hmem (by simp [hh])
    have hclean' : ∀ cat ∈ t.map Prod.fst, rxFull key.data cat.data = true → cat = key :=
      fun cat hcat => hclean cat (by simp [hcat])
    by_cases hpre : rxPreDot key.data c.data
    · simpa [scanGo, hrx, hpre] using ih hclean' hmem' _
    · simpa [scanGo, hrx, hpre] using ih hclean' hmem' _

/-- `__getitem__` on a nonempty, non-global key `k` whose regex pattern
matches no stored category other than `k` itself returns the value found by
the external-store-first two-store lookup. -/
theorem getItem_exact (σ : RcState) (k : String) (v : RVal)
    (hne : k ≠ "")
    (hg : alookup σ.rcGlobals k = none)
    (hclean : ∀ cat ∈ σ.rcParams.map Prod.fst ++ σ.rcSpecial.map Prod.fst,
        rxFull k.data cat.data = true → cat = k)
    (hv : lookup2 σ.rcParams σ.rcSpecial k = some v) :
    getItem σ k = .ok (.val v) := by
  have hcp : ∀ cat ∈ σ.rcParams.map Prod.fst, rxFull k.data cat.data = true → cat = k :=
    fun cat hc => hclean cat (List.mem_append_left _ hc)
  have hcs : ∀ cat ∈ σ.rcSpecial.map Prod.fst, rxFull k.data cat.data = true → cat = k :=
    fun cat hc => hclean cat (List.mem_append_right _ hc)
  unfold getItem
  rw [if_neg hne, hg]
  by_cases hp : k ∈ σ.rcParams.map Prod.fst
  · rw [scanGo_inl_of_mem k σ.rcParams σ.rcParams hcp hp []]
    unfold lookup2 at hv
    cases hw : alookup σ.rcParams k with
    | none =>
      exact absurd ((alookup_isSome_iff _ _).2 hp) (by simp [hw])
    | some w =>
      rw [hw] at hv
      simp [hw, Option.some.inj hv]
  · rcases scanGo_inr_of_not_mem k σ.rcParams σ.rcParams hcp hp [] with ⟨acc1, h1⟩
    rw [h1]
    have hpn : alookup σ.rcParams k = none := (alookup_eq_none_iff _ _).2 hp
    unfold lookup2 at hv
    rw [hpn] at hv
    simp only at hv
    have hs : k ∈ σ.rcSpecial.map Prod.fst :=
      (alookup_isSome_iff _ _).1 (by simp [hv])
    simp only
    rw [scanGo_inl_of_mem k σ.rcSpecial σ.rcSpecial hcs hs acc1, hv]

/-! ### Effect of the `set` stages on the global table -/

theorem andThen_pres (P : RcState → Prop) (r : RcState × Option Err)
    (f : RcState → RcState × Option Err)
    (hr : P r.1) (hf : ∀ σ, P σ → P (f σ).1) : P (andThen r f).1 := by
  obtain ⟨σ, e⟩ := r
  cases e with
  | none => exact hf σ hr
  | some e => exact hr

theorem andThen_ok (r : RcState × Option Err) (f : RcState → RcState × Option Err)
    (h : (andThen r f).2 = none) : r.2 = none ∧ andThen r f = f r.1 := by
  obtain ⟨σ, e⟩ := r
  cases e with
  | none => exact ⟨rfl, rfl⟩
  | some e => exact absurd h (by simp [andThen])

theorem tickSize_rcGlobals (σ : RcState) (k : String) (v : RVal) :
    (tickSize σ k v).1.rcGlobals = σ.rcGlobals := by
  unfold tickSize
  split
  · split
    · rfl
    · split
      · rfl
      · rfl
  · rfl

theorem tickSize_flagInit (σ : RcState) (k : String) (v : RVal) :
    (tickSize σ k v).1.flagInit = σ.flagInit := by
  unfold tickSize
  split
  · split
    · rfl
    · split
      · rfl
      · rfl
  · rfl

theorem tickWidth_rcGlobals (σ : RcState) (k : String) (v : RVal) :
    (tickWidth σ k v).1.rcGlobals = σ.rcGlobals := by
  unfold tickWidth
  split
  · split
    · rfl
    · split
      · rfl
      · rfl
  · rfl

theorem propagate_rcGlobals (v : RVal) :
    ∀ (l : List String) (σ : RcState), (propagate σ v l).1.rcGlobals = σ.rcGlobals := by
  intro l
  induction l with
  | nil => intro σ; rfl
  | cons n t ih =>
    intro σ
    unfold propagate
    split
    · rw [ih]
    · split
      · rw [ih]
      · rfl

theorem directSet_rcGlobals (σ : RcState) (k : String) (v : RVal) :
    (directSet σ k v).1.rcGlobals = σ.rcGlobals := by
  unfold directSet
  split
  · rfl
  · split
    · rfl
    · rfl

theorem batchGo_rcGlobals (key : String) :
    ∀ (l : List (String × RVal)) (σ : RcState),
      (batchGo key σ l).1.rcGlobals = σ.rcGlobals := by
  intro l
  induction l with
  | nil => intro σ; rfl
  | cons p t ih =>
    intro σ
    obtain ⟨n, v⟩ := p
    unfold batchGo
    split
    · rw [ih]
    · split
      · rw [ih]
      · rfl

theorem setGlobal_rcGlobals (σ : RcState) (k : String) (v : RVal) :
    (setGlobal σ k v).1.rcGlobals = aset σ.rcGlobals k v := by
  unfold setGlobal
  refine andThen_pres (fun τ => τ.rcGlobals = aset σ.rcGlobals k v) _ _ ?_ ?_
  · dsimp only
    rw [tickSize_rcGlobals]
  · intro τ hτ
    refine andThen_pres (fun τ' => τ'.rcGlobals = aset σ.rcGlobals k v) _ _ ?_ ?_
    · dsimp only
      rw [tickWidth_rcGlobals, hτ]
    · intro τ' hτ'
      refine andThen_pres (fun τ'' => τ''.rcGlobals = aset σ.rcGlobals k v) _ _ ?_ ?_
      · dsimp only
        rw [propagate_rcGlobals, hτ']
      · intro τ'' hτ''
        exact hτ''

theorem setCore_globals_keys (σ : RcState) (k : String) (v : RVal) :
    (setCore σ k v).1.rcGlobals.map Prod.fst = σ.rcGlobals.map Prod.fst := by
  unfold setCore
  split
  next hg =>
    rw [setGlobal_rcGlobals,
      aset_keys_of_mem _ _ _ ((alookup_isSome_iff _ _).1 hg)]
  next =>
    split
    · rw [batchGo_rcGlobals]
    all_goals rw [directSet_rcGlobals]

theorem setItem_globals_keys (σ : RcState) (k : String) (v : RVal) :
    (setItem σ k v).1.rcGlobals.map Prod.fst = σ.rcGlobals.map Prod.fst := by
  unfold setItem
  split
  · refine andThen_pres (fun τ => τ.rcGlobals.map Prod.fst = σ.rcGlobals.map Prod.fst) _ _ ?_ ?_
    · dsimp only
      rw [setCore_globals_keys]
    · intro τ hτ
      refine andThen_pres (fun τ' => τ'.rcGlobals.map Prod.fst = σ.rcGlobals.map Prod.fst) _ _ ?_ ?_
      · dsimp only
        rw [setCore_globals_keys, hτ]
      · intro τ' hτ'
        exact hτ'
  · rw [setCore_globals_keys]

theorem setCore_globals_lookup_ne (σ : RcState) (k g : String) (v : RVal) (h : k ≠ g) :
    alookup (setCore σ k v).1.rcGlobals g = alookup σ.rcGlobals g := by
  unfold setCore
  split
  · rw [setGlobal_rcGlobals, alookup_aset_ne _ _ _ _ (fun hh => h hh.symm)]
  · split
    · rw [batchGo_rcGlobals]
    all_goals rw [directSet_rcGlobals]

/-- A `set` whose alias-resolved key is neither `'cycle'` nor `g` leaves the
global `g` untouched (whether or not the call raised). -/
theorem setItem_globals_lookup_ne (σ : RcState) (k g : String) (v : RVal)
    (hc : resolveKey k ≠ "cycle") (h : resolveKey k ≠ g) :
    alookup (setItem σ k v).1.rcGlobals g = alookup σ.rcGlobals g := by
  unfold setItem
  rw [if_neg hc]
  exact setCore_globals_lookup_ne σ _ g v h

/-- A `set` whose alias-resolved key is the global `g` (present in the
instance global table) stores the given value as `g`'s value, whether or not
a later stage of the call raised. -/
theorem setItem_globals_lookup_self (σ : RcState) (k g : String) (v : RVal)
    (hres : resolveKey k = g) (hc : g ≠ "cycle")
    (hg : (alookup σ.rcGlobals g).isSome = true) :
    alookup (setItem σ k v).1.rcGlobals g = some v := by
  unfold setItem
  rw [hres, if_neg hc]
  unfold setCore
  rw [if_pos hg, setGlobal_rcGlobals, alookup_aset_self]

/-! ### `propagate` postconditions -/

theorem propagate_preserve (v : RVal) (k : String) :
    ∀ (l : List String) (σ : RcState), k ∉ l →
      alookup (propagate σ v l).1.rcParams k = alookup σ.rcParams k ∧
      alookup (propagate σ v l).1.rcSpecial k = alookup σ.rcSpecial k := by
  intro l
  induction l with
  | nil => intro σ _; exact ⟨rfl, rfl⟩
  | cons n t ih =>
    intro σ hk
    have hkn : k ≠ n := fun h => hk (by simp [h])
    have hkt : k ∉ t := fun h => hk (by simp [h])
    unfold propagate
    split
    · rcases ih {σ with rcParams := aset σ.rcParams n v} hkt with ⟨h1, h2⟩
      refine ⟨?_, ?_⟩
      · rw [h1]
        exact alookup_aset_ne _ _ _ _ hkn
      · rw [h2]
    · split
      · rcases ih {σ with rcSpecial := aset σ.rcSpecial n v} hkt with ⟨h1, h2⟩
        refine ⟨?_, ?_⟩
        · rw [h1]
        · rw [h2]
          exact alookup_aset_ne _ _ _ _ hkn
      · exact ⟨rfl, rfl⟩

theorem propagate_lookup2_pres (v : RVal) (k : String) :
    ∀ (l : List String) (σ : RcState),
      lookup2 σ.rcParams σ.rcSpecial k = some v →
      lookup2 (propagate σ v l).1.rcParams (propagate σ v l).1.rcSpecial k = some v := by
  intro l
  induction l with
  | nil => intro σ h; exact h
  | cons n t ih =>
    intro σ h
    simp only [propagate]
    by_cases hnp : (alookup σ.rcParams n).isSome = true
    · rw [if_pos hnp]
      refine ih _ ?_
      unfold lookup2 at h ⊢
      dsimp only
      by_cases hk : k = n
      · subst hk
        rw [alookup_aset_self]
      · rw [alookup_aset_ne _ _ _ _ hk]
        exact h
    · rw [if_neg hnp]
      by_cases hns : (alookup σ.rcSpecial n).isSome = true
      · rw [if_pos hns]
        refine ih _ ?_
        unfold lookup2 at h ⊢
        dsimp only
        by_cases hk : k = n
        · subst hk
          cases hkp : alookup σ.rcParams k with
          | some w => exact absurd hnp (by simp [hkp])
          | none => rw [alookup_aset_self]
        · rw [alookup_aset_ne _ _ _ _ hk]
          exact h
      · rw [if_neg hns]
        exact h

theorem propagate_ok_children (v : RVal) :
    ∀ (l : List String) (σ : RcState), (propagate σ v l).2 = none →
      ∀ n ∈ l, lookup2 (propagate σ v l).1.rcParams (propagate σ v l).1.rcSpecial n = some v := by
  intro l
  induction l with
  | nil => intro σ _ n hn; simp at hn
  | cons m t ih =>
    intro σ hok n hn
    simp only [propagate] at hok ⊢
    by_cases hmp : (alookup σ.rcParams m).isSome = true
    · rw [if_pos hmp] at hok ⊢
      rcases List.mem_cons.1 hn with hn | hn
      · subst hn
        refine propagate_lookup2_pres v n t _ ?_
        unfold lookup2
        dsimp only
        rw [alookup_aset_self]
      · exact ih _ hok n hn
    · rw [if_neg hmp] at hok ⊢
      by_cases hms : (alookup σ.rcSpecial m).isSome = true
      · rw [if_pos hms] at hok ⊢
        rcases List.mem_cons.1 hn with hn | hn
        · subst hn
          refine propagate_lookup2_pres v n t _ ?_
          unfold lookup2
          dsimp only
          cases hkp : alookup σ.rcParams n with
          | some w => exact absurd hmp (by simp [hkp])
          | none => rw [alookup_aset_self]
        · exact ih _ hok n hn
      · rw [if_neg hms] at hok
        cases hok

/-! ### `setSeq` and the global table -/

theorem setSeq_globals_preserve (g : String) :
    ∀ (l : AList) (σ : RcState),
      (∀ p ∈ l, p.1 ≠ "cycle" ∧ resolveKey p.1 ≠ g) →
      alookup (setSeq σ l).1.rcGlobals g = alookup σ.rcGlobals g := by
  intro l
  induction l with
  | nil => intro σ _; rfl
  | cons p t ih =>
    intro σ hl
    obtain ⟨k, v⟩ := p
    rcases hl (k, v) (by simp) with ⟨hk1, hk2⟩
    have hpre := setItem_globals_lookup_ne σ k g v (resolveKey_ne_cycle k hk1) hk2
    simp only [setSeq]
    cases hsi : setItem σ k v with
    | mk σ' e =>
      rw [hsi] at hpre
      dsimp only at hpre
      cases e with
      | none =>
        simp only [andThen]
        rw [ih σ' (fun q hq => hl q (by simp [hq]))]
        exact hpre
      | some e =>
        simp only [andThen]
        exact hpre

theorem setSeq_globals_restore (g : String) (w : RVal) :
    ∀ (l : AList) (σ : RcState),
      (setSeq σ l).2 = none →
      (∀ p ∈ l, p.1 ≠ "cycle") →
      (∀ p ∈ l, resolveKey p.1 = g → p.2 = w) →
      g ∈ σ.rcGlobals.map Prod.fst →
      (alookup σ.rcGlobals g = some w ∨ ∃ p ∈ l, resolveKey p.1 = g) →
      alookup (setSeq σ l).1.rcGlobals g = some w := by
  intro l
  induction l with
  | nil =>
    intro σ _ _ _ _ hd
    rcases hd with hd | ⟨p, hp, -⟩
    · exact hd
    · simp at hp
  | cons p t ih =>
    intro σ hok hcy hw hmem hd
    obtain ⟨k, v⟩ := p
    have hk1 : k ≠ "cycle" := hcy (k, v) (by simp)
    cases hsi : setItem σ k v with
    | mk σ' e =>
      cases e with
      | some e =>
        exfalso
        simp [setSeq, hsi, andThen] at hok
      | none =>
        have hstep : setSeq σ ((k, v) :: t) = setSeq σ' t := by
          simp only [setSeq, hsi, andThen]
        rw [hstep]
        have hok' : (setSeq σ' t).2 = none := by rw [← hstep]; exact hok
        have hmem' : g ∈ σ'.rcGlobals.map Prod.fst := by
          have hkeys := setItem_globals_keys σ k v
          rw [hsi] at hkeys
          dsimp only at hkeys
          rw [hkeys]
          exact hmem
        refine ih σ' hok' (fun q hq => hcy q (by simp [hq]))
          (fun q hq => hw q (by simp [hq])) hmem' ?_
        by_cases hr : resolveKey k = g
        · left
          have hv : v = w := hw (k, v) (by simp) hr
          have hgc : g ≠ "cycle" := by
            rw [← hr]
            exact resolveKey_ne_cycle k hk1
          have hself := setItem_globals_lookup_self σ k g v hr hgc
            ((alookup_isSome_iff _ _).2 hmem)
          rw [hsi] at hself
          dsimp only at hself
          rw [hself, hv]
        · have hpre := setItem_globals_lookup_ne σ k g v (resolveKey_ne_cycle k hk1) hr
          rw [hsi] at hpre
          dsimp only at hpre
          rcases hd with hd | ⟨q, hq, hqg⟩
          · left
            rw [hpre]
            exact hd
          · rcases List.mem_cons.1 hq with hq | hq
            · rw [hq] at hqg
              exact absurd hqg hr
            · exact Or.inr ⟨q, hq, hqg⟩

/-! ### Helpers for the scope claims -/

/-- Resolution cannot produce `g` when `g` is neither the key itself nor an
owner name of the static child table. -/
theorem resolveKey_ne_of (k g : String) (hk : k ≠ g)
    (howner : ∀ p ∈ rcChildrenT, p.1 ≠ g) : resolveKey k ≠ g := by
  unfold resolveKey
  cases hc : childOwner k with
  | none => simpa using hk
  | some o =>
    rcases childOwner_mem k o hc with ⟨p, hp, hpo, -⟩
    simpa [hpo] using howner p hp

theorem setSeq_single_fst (σ : RcState) (k : String) (v : RVal) :
    (setSeq σ [(k, v)]).1 = (setItem σ k v).1 := by
  simp only [setSeq]
  cases setItem σ k v with
  | mk σ' e => cases e <;> simp [andThen, setSeq]

/-- Construct a scope over `kwargs` on state `σ`, enter it, run an empty
body, and exit; the resulting registry state. -/
def scopeRun (σ : RcState) (kwargs : AList) : RcState :=
  ((ctxExit (ctxInit σ kwargs) (ctxEnter (ctxInit σ kwargs) σ).1).1).1

/-! ### The claims -/

/-- C4: for a concrete key `k` in the child list of global `g` (i.e. the
alias table resolves `k` to `g`), `set(k, v)` is literally the same
operation as `set(g, v)`: `__setitem__` replaces `k` by `g` before doing
anything else, so the resulting state and error behaviour coincide for every
starting state and every value. -/
theorem claim_C4 (σ : RcState) (k g : String) (v : RVal) (h : childOwner k = some g) :
    setItem σ k v = setItem σ g v := by
  have hg : resolveKey k = g := resolveKey_of_owner k g h
  have hgo : childOwner g = none := by
    rcases childOwner_mem k g h with ⟨p, hp, hpg, -⟩
    rw [← hpg]
    exact owners_not_aliased p hp
  have hgg : resolveKey g = g := by simp [resolveKey, hgo]
  unfold setItem
  rw [hg, hgg]

theorem claim_C4_witness :
    setItem rc0 "axes.facecolor" (RVal.str "blue") = setItem rc0 "facecolor" (RVal.str "blue") :=
  claim_C4 rc0 "axes.facecolor" "facecolor" (RVal.str "blue") (by decide)

/-- C9: the snapshot taken by `rc_context.__init__` consists of the two
stores only (its `_rcparams`/`_special` fields are copies of the external
and special stores; the global table is not captured).  Consequently, for a
global property with no child concrete keys — `tickratio` here — exiting a
scope that overrode it does *not* restore it: the replayed snapshot contains
no key that alias-resolves to `tickratio`, so `get('tickratio')` still
returns the override value `1/4`, not the pre-scope value `vpre`.  The
hypotheses say the state is well formed: the instance global table has the
static global keys, and no store key is a global name or `'cycle'`. -/
theorem claim_C9 (σ : RcState) (vpre : RVal)
    (hkeys : σ.rcGlobals.map Prod.fst = rcGlobalsT.map Prod.fst)
    (hstores : ∀ p ∈ dmerge σ.rcParams σ.rcSpecial,
        p.1 ∉ rcGlobalsT.map Prod.fst ∧ p.1 ≠ "cycle")
    (hpre : alookup σ.rcGlobals "tickratio" = some vpre)
    (hne : vpre ≠ RVal.num (1/4)) :
    (ctxInit σ [("tickratio", RVal.num (1/4))]).rcparams = σ.rcParams ∧
    (ctxInit σ [("tickratio", RVal.num (1/4))]).special = σ.rcSpecial ∧
    getItem (scopeRun σ [("tickratio", RVal.num (1/4))]) "tickratio"
      = .ok (.val (RVal.num (1/4))) ∧
    getItem (scopeRun σ [("tickratio", RVal.num (1/4))]) "tickratio"
      ≠ .ok (.val vpre) := by
  refine ⟨rfl, rfl, ?_, ?_⟩
  all_goals
    have hmem : "tickratio" ∈ σ.rcGlobals.map Prod.fst := by
      rw [hkeys]; decide
    have h1 : alookup (setItem σ "tickratio" (RVal.num (1/4))).1.rcGlobals "tickratio"
        = some (RVal.num (1/4)) :=
      setItem_globals_lookup_self σ "tickratio" "tickratio" (RVal.num (1/4)) rfl
        (by decide) ((alookup_isSome_iff _ _).2 hmem)
    have hrun : scopeRun σ [("tickratio", RVal.num (1/4))] =
        (setSeq (setSeq σ [("tickratio", RVal.num (1/4))]).1
          (dmerge σ.rcParams σ.rcSpecial)).1 := rfl
    have hpres : ∀ p ∈ dmerge σ.rcParams σ.rcSpecial,
        p.1 ≠ "cycle" ∧ resolveKey p.1 ≠ "tickratio" := by
      intro p hp
      rcases hstores p hp with ⟨hng, hnc⟩
      refine ⟨hnc, resolveKey_ne_of p.1 "tickratio" ?_ (by decide)⟩
      intro hh
      exact hng (by rw [hh]; decide)
    have h2 : alookup (scopeRun σ [("tickratio", RVal.num (1/4))]).rcGlobals "tickratio"
        = some (RVal.num (1/4)) := by
      rw [hrun, setSeq_globals_preserve "tickratio" _ _ hpres, setSeq_single_fst]
      exact h1
    have hget : getItem (scopeRun σ [("tickratio", RVal.num (1/4))]) "tickratio"
        = .ok (.val (RVal.num (1/4))) := by
      unfold getItem
      rw [if_neg (by decide : ¬("tickratio" : String) = ""), h2]
  · exact hget
  · rw [hget]
    intro hcontra
    injection hcontra with hv
    injection hv with hv2
    exact hne hv2.symm

theorem claim_C9_witness :
    getItem (scopeRun ⟨[], [], rcGlobalsT, true⟩ [("tickratio", RVal.num (1/4))]) "tickratio"
      = .ok (.val (RVal.num (1/4))) :=
  (claim_C9 ⟨[], [], rcGlobalsT, true⟩ (RVal.num (1/2)) rfl
    (by intro p hp; simp [dmerge] at hp) rfl
    (by intro h; injection h with h2; norm_num at h2)).2.2.1

/-- C5: scope restoration for the nonempty override `{ticklen: 10}`.  The
scope body is arbitrary — `σb` is whatever state the body left behind,
whether it returned normally or raised — and `__exit__` runs
unconditionally.  If the snapshot replay completes without an exception,
`get('ticklen')` afterwards returns `vpre`, the value `ticklen` had strictly
before the scope began: the snapshot holds the two stores (special layered
over external), and replaying the child keys of `ticklen` (which carry
`vpre`, the consistency `hsnap` of a reachable pre-scope state) through
`set` restores the global via alias redirection.  The second conjunct is
the truthiness of `__exit__`'s return value (`None`): the exit condition is
never suppressed. -/
theorem claim_C5 (σ σb : RcState) (vpre : RVal)
    (hpre : alookup σ.rcGlobals "ticklen" = some vpre)
    (hbkeys : σb.rcGlobals.map Prod.fst = rcGlobalsT.map Prod.fst)
    (hsnap : ∀ p ∈ dmerge σ.rcParams σ.rcSpecial, resolveKey p.1 = "ticklen" → p.2 = vpre)
    (hstores : ∀ p ∈ dmerge σ.rcParams σ.rcSpecial,
        p.1 ∉ rcGlobalsT.map Prod.fst ∧ p.1 ≠ "cycle")
    (hsome : ∃ p ∈ dmerge σ.rcParams σ.rcSpecial, resolveKey p.1 = "ticklen")
    (hexit : ((ctxExit (ctxInit σ [("ticklen", RVal.num 10)]) σb).1).2 = none) :
    getItem ((ctxExit (ctxInit σ [("ticklen", RVal.num 10)]) σb).1).1 "ticklen"
      = .ok (.val vpre) ∧
    (ctxExit (ctxInit σ [("ticklen", RVal.num 10)]) σb).2 = false := by
  have hred : (ctxExit (ctxInit σ [("ticklen", RVal.num 10)]) σb).1
      = setSeq σb (dmerge σ.rcParams σ.rcSpecial) := rfl
  refine ⟨?_, rfl⟩
  have hok : (setSeq σb (dmerge σ.rcParams σ.rcSpecial)).2 = none := by
    rw [← hred]
    exact hexit
  have hcy : ∀ p ∈ dmerge σ.rcParams σ.rcSpecial, p.1 ≠ "cycle" :=
    fun p hp => (hstores p hp).2
  have hmem : "ticklen" ∈ σb.rcGlobals.map Prod.fst := by
    rw [hbkeys]; decide
  have h2 : alookup (setSeq σb (dmerge σ.rcParams σ.rcSpecial)).1.rcGlobals "ticklen"
      = some vpre :=
    setSeq_globals_restore "ticklen" vpre _ σb hok hcy hsnap hmem (Or.inr hsome)
  rw [hred]
  unfold getItem
  rw [if_neg (by decide : ¬("ticklen" : String) = ""), h2]

def sW5 : RcState :=
  ⟨[("xtick.major.size", RVal.num 4), ("ytick.major.size", RVal.num 4)], [], rcGlobalsT, true⟩

theorem claim_C5_witness :
    getItem ((ctxExit (ctxInit sW5 [("ticklen", RVal.num 10)]) sW5).1).1 "ticklen"
      = .ok (.val (RVal.num 4)) ∧
    (ctxExit (ctxInit sW5 [("ticklen", RVal.num 10)]) sW5).2 = false :=
  claim_C5 sW5 sW5 (RVal.num 4) rfl rfl
    (by
      intro p hp _
      have hp' : p ∈ [("xtick.major.size", RVal.num 4), ("ytick.major.size", RVal.num 4)] := hp
      fin_cases hp' <;> rfl)
    (by
      intro p hp
      have hp' : p ∈ [("xtick.major.size", RVal.num 4), ("ytick.major.size", RVal.num 4)] := hp
      fin_cases hp' <;> exact ⟨by decide, by decide⟩)
    ⟨("xtick.major.size", RVal.num 4), List.mem_cons_self _ _, rfl⟩
    rfl

theorem setCore_direct (σ : RcState) (k : String) (v : RVal)
    (hkg : alookup σ.rcGlobals k = none)
    (hnd : v.isDict = false) :
    setCore σ k v = directSet σ k v := by
  unfold setCore
  rw [if_neg (by simp [hkg])]
  cases v <;> first | rfl | simp [RVal.isDict] at hnd

/-- C6: the round trip `set(k, v); get(k) == v` for a concrete key `k` that
is not in any global's child list (`childOwner k = none`) but exists in the
external or the special store, with a non-dict value.  The remaining
hypotheses pin down well-formedness of the state and key: `k` is not the
`'cycle'` pseudo-key, not empty, not a key of the instance global table, and
`k`'s regex pattern matches no stored category other than `k` itself (all
true of every real concrete key against the real stores). -/
theorem claim_C6 (σ : RcState) (k : String) (v : RVal)
    (hko : childOwner k = none) (hkc : k ≠ "cycle") (hke : k ≠ "")
    (hkg : alookup σ.rcGlobals k = none)
    (hex : (alookup σ.rcParams k).isSome = true ∨ (alookup σ.rcSpecial k).isSome = true)
    (hnd : v.isDict = false)
    (hclean : ∀ cat ∈ (setItem σ k v).1.rcParams.map Prod.fst
        ++ (setItem σ k v).1.rcSpecial.map Prod.fst,
        rxFull k.data cat.data = true → cat = k) :
    getItem (setItem σ k v).1 k = .ok (.val v) := by
  have hres : resolveKey k = k := by simp [resolveKey, hko]
  have heq : setItem σ k v = directSet σ k v := by
    unfold setItem
    rw [hres, if_neg hkc]
    exact setCore_direct σ k v hkg hnd
  rw [heq] at hclean ⊢
  by_cases hp : (alookup σ.rcParams k).isSome = true
  · have hd : directSet σ k v = ({σ with rcParams := aset σ.rcParams k v, flagInit := false}, none) := by
      unfold directSet
      rw [if_pos hp]
    rw [hd] at hclean ⊢
    dsimp only at hclean ⊢
    refine getItem_exact _ k v hke hkg hclean ?_
    unfold lookup2
    dsimp only
    rw [alookup_aset_self]
  · have hs : (alookup σ.rcSpecial k).isSome = true := hex.resolve_left hp
    have hd : directSet σ k v = ({σ with rcSpecial := aset σ.rcSpecial k v, flagInit := false}, none) := by
      unfold directSet
      rw [if_neg hp, if_pos hs]
    rw [hd] at hclean ⊢
    dsimp only at hclean ⊢
    refine getItem_exact _ k v hke hkg hclean ?_
    unfold lookup2
    dsimp only
    cases hkp : alookup σ.rcParams k with
    | some w => exact absurd hp (by simp [hkp])
    | none => rw [alookup_aset_self]

theorem claim_C6_witness :
    getItem (setItem ⟨[("lines.linewidth", RVal.num 1)], [], rcGlobalsT, true⟩
      "lines.linewidth" (RVal.num 7)).1 "lines.linewidth" = .ok (.val (RVal.num 7)) :=
  claim_C6 ⟨[("lines.linewidth", RVal.num 1)], [], rcGlobalsT, true⟩
    "lines.linewidth" (RVal.num 7)
    (by decide) (by decide) (by decide) rfl (Or.inl (by decide)) rfl (by decide)

/-- C1: for a global property `g` (a key of the static globals table) with
child keys `[c1,...,cn]`, a `set(g, v)` call that completes without an
exception leaves `get(ci) == v` for every child `ci`.  (Completion already
entails that every child exists in one of the two stores — a missing child
raises `UnknownKey` mid-loop — so the claim's "that exists in either store"
qualifier is subsumed by the success hypothesis `hok`.)  `hkeys` says the
instance global table carries the static global keys, and `hclean` says the
child's regex pattern matches no stored category other than itself — both
hold in every reachable state. -/
theorem claim_C1 (σ : RcState) (g ci : String) (v : RVal)
    (hg : g ∈ rcGlobalsT.map Prod.fst)
    (hkeys : σ.rcGlobals.map Prod.fst = rcGlobalsT.map Prod.fst)
    (hok : (setItem σ g v).2 = none)
    (hci : ci ∈ childrenOf g)
    (hclean : ∀ cat ∈ (setItem σ g v).1.rcParams.map Prod.fst
        ++ (setItem σ g v).1.rcSpecial.map Prod.fst,
        rxFull ci.data cat.data = true → cat = ci) :
    getItem (setItem σ g v).1 ci = .ok (.val v) := by
  rcases childrenOf_mem g ci hci with ⟨p, hp, hpg, hcip⟩
  have hcifacts := children_not_globals p hp ci hcip
  have hkeys' := setItem_globals_keys σ g v
  have hsome : (alookup σ.rcGlobals g).isSome = true :=
    (alookup_isSome_iff _ _).2 (by rw [hkeys]; exact hg)
  have heq : setItem σ g v = setGlobal σ g v := by
    unfold setItem
    rw [resolveKey_global g hg, if_neg (globals_ne_cycle g hg)]
    unfold setCore
    rw [if_pos hsome]
  rw [heq] at hok hclean hkeys' ⊢
  unfold setGlobal at hok hclean hkeys' ⊢
  obtain ⟨h1ok, h1eq⟩ := andThen_ok _ _ hok
  rw [h1eq] at hok hclean hkeys' ⊢
  try dsimp only at hok hclean hkeys' ⊢
  obtain ⟨h2ok, h2eq⟩ := andThen_ok _ _ hok
  rw [h2eq] at hok hclean hkeys' ⊢
  try dsimp only at hok hclean hkeys' ⊢
  obtain ⟨h3ok, h3eq⟩ := andThen_ok _ _ hok
  rw [h3eq] at hok hclean hkeys' ⊢
  try dsimp only at hok hclean hkeys' ⊢
  have hv := propagate_ok_children v (childrenOf g) _ h3ok ci hci
  refine getItem_exact _ ci v hcifacts.2.1 ?_ hclean hv
  rw [alookup_eq_none_iff _ _]
  intro hmem
  rw [hkeys', hkeys] at hmem
  exact hcifacts.1 hmem

theorem claim_C1_witness :
    getItem (setItem ⟨[("axes.facecolor", RVal.str "w")], [], rcGlobalsT, true⟩
      "facecolor" (RVal.str "blue")).1 "axes.facecolor" = .ok (.val (RVal.str "blue")) :=
  claim_C1 ⟨[("axes.facecolor", RVal.str "w")], [], rcGlobalsT, true⟩
    "facecolor" "axes.facecolor" (RVal.str "blue")
    (by decide) rfl rfl (by decide) (by decide)

/-- Setting a `ticklen`/`tickratio` global whose size recomputation yields
the numeric operands `t`, `r` writes `t*r` to both minor-tick-size keys of
the external store, and nothing later in the call overwrites them. -/
theorem minor_size_after (σ : RcState) (key : String) (v : RVal) (t r : ℚ)
    (hkey : (key = "ticklen" || key = "tickratio") = true)
    (hnw : (key = "linewidth" || key = "minorwidth") = false)
    (hres : resolveKey key = key) (hnc : key ≠ "cycle")
    (hsome : (alookup σ.rcGlobals key).isSome = true)
    (hops : tickSizeOperands {σ with rcGlobals := aset σ.rcGlobals key v} key v
        = Except.ok (RVal.num t, RVal.num r))
    (hchx : "xtick.minor.size" ∉ childrenOf key)
    (hchy : "ytick.minor.size" ∉ childrenOf key) :
    alookup (setItem σ key v).1.rcParams "xtick.minor.size" = some (RVal.num (t * r)) ∧
    alookup (setItem σ key v).1.rcParams "ytick.minor.size" = some (RVal.num (t * r)) := by
  have heq : setItem σ key v = setGlobal σ key v := by
    unfold setItem
    rw [hres, if_neg hnc]
    unfold setCore
    rw [if_pos hsome]
  have hts : tickSize {σ with rcGlobals := aset σ.rcGlobals key v} key v
      = (⟨aset (aset σ.rcParams "xtick.minor.size" (RVal.num (t * r)))
             "ytick.minor.size" (RVal.num (t * r)),
          σ.rcSpecial, aset σ.rcGlobals key v, σ.flagInit⟩, none) := by
    unfold tickSize
    rw [hkey, if_pos rfl, hops]
    rfl
  rw [heq]
  unfold setGlobal
  rw [hts]
  refine andThen_pres (fun τ =>
      alookup τ.rcParams "xtick.minor.size" = some (RVal.num (t * r)) ∧
      alookup τ.rcParams "ytick.minor.size" = some (RVal.num (t * r))) _ _ ⟨?_, ?_⟩ ?_
  · dsimp only
    rw [alookup_aset_ne _ _ _ _ (by decide : ("xtick.minor.size" : String) ≠ "ytick.minor.size")]
    exact alookup_aset_self _ _ _
  · dsimp only
    exact alookup_aset_self _ _ _
  · intro τ hτ
    dsimp only
    have htw : tickWidth τ key v = (τ, none) := by
      unfold tickWidth
      rw [hnw]
      rfl
    rw [htw]
    refine andThen_pres (fun τ0 =>
        alookup τ0.rcParams "xtick.minor.size" = some (RVal.num (t * r)) ∧
        alookup τ0.rcParams "ytick.minor.size" = some (RVal.num (t * r))) (τ, none) _ hτ ?_
    intro τ' hτ'
    dsimp only
    refine andThen_pres (fun τ0 =>
        alookup τ0.rcParams "xtick.minor.size" = some (RVal.num (t * r)) ∧
        alookup τ0.rcParams "ytick.minor.size" = some (RVal.num (t * r))) _ _ ⟨?_, ?_⟩ ?_
    · rw [(propagate_preserve v "xtick.minor.size" (childrenOf key) τ' hchx).1]
      exact hτ'.1
    · rw [(propagate_preserve v "ytick.minor.size" (childrenOf key) τ' hchy).1]
      exact hτ'.2
    · intro τ'' hτ''
      exact hτ''

/-- C2: immediately after `set('ticklen', v)` or `set('tickratio', v)` with
numeric values, both `xtick.minor.size` and `ytick.minor.size` in the
external store equal the product of the current `ticklen` and `tickratio`
globals, the just-set value being used for whichever of the two was set
(first two conjuncts, over any state whose instance global table has the
static keys).  The last conjunct is the spec's example scenario on the
freshly constructed registry: `ticklen=4.0`, `tickratio=0.5` give minor size
`2.0`; after `set('tickratio', 0.25)` the minor sizes are `1.0` while
`get('ticklen')` remains `4.0`. -/
theorem claim_C2 :
    (∀ (σ : RcState) (x b : ℚ),
      σ.rcGlobals.map Prod.fst = rcGlobalsT.map Prod.fst →
      alookup σ.rcGlobals "tickratio" = some (RVal.num b) →
      alookup (setItem σ "ticklen" (RVal.num x)).1.rcParams "xtick.minor.size"
          = some (RVal.num (x * b)) ∧
      alookup (setItem σ "ticklen" (RVal.num x)).1.rcParams "ytick.minor.size"
          = some (RVal.num (x * b))) ∧
    (∀ (σ : RcState) (y a : ℚ),
      σ.rcGlobals.map Prod.fst = rcGlobalsT.map Prod.fst →
      alookup σ.rcGlobals "ticklen" = some (RVal.num a) →
      alookup (setItem σ "tickratio" (RVal.num y)).1.rcParams "xtick.minor.size"
          = some (RVal.num (a * y)) ∧
      alookup (setItem σ "tickratio" (RVal.num y)).1.rcParams "ytick.minor.size"
          = some (RVal.num (a * y))) ∧
    (getItem rc0 "ticklen" = .ok (.val (RVal.num 4)) ∧
     getItem rc0 "tickratio" = .ok (.val (RVal.num (1/2))) ∧
     getItem rc0 "xtick.minor.size" = .ok (.val (RVal.num 2)) ∧
     getItem rc0 "ytick.minor.size" = .ok (.val (RVal.num 2)) ∧
     getItem (setItem rc0 "tickratio" (RVal.num (1/4))).1 "xtick.minor.size"
         = .ok (.val (RVal.num 1)) ∧
     getItem (setItem rc0 "tickratio" (RVal.num (1/4))).1 "ytick.minor.size"
         = .ok (.val (RVal.num 1)) ∧
     getItem (setItem rc0 "tickratio" (RVal.num (1/4))).1 "ticklen"
         = .ok (.val (RVal.num 4))) := by
  refine ⟨?_, ?_, ?_⟩
  · intro σ x b hkeys hb
    refine minor_size_after σ "ticklen" (RVal.num x) x b (by decide) (by decide) rfl (by decide)
      ((alookup_isSome_iff _ _).2 (by rw [hkeys]; decide)) ?_ (by decide) (by decide)
    unfold tickSizeOperands
    rw [if_neg (by decide : ¬("ticklen" : String) = "tickratio")]
    dsimp only
    rw [alookup_aset_ne _ _ _ _ (by decide : ("tickratio" : String) ≠ "ticklen"), hb]
  · intro σ y a hkeys ha
    refine minor_size_after σ "tickratio" (RVal.num y) a y (by decide) (by decide) rfl (by decide)
      ((alookup_isSome_iff _ _).2 (by rw [hkeys]; decide)) ?_ (by decide) (by decide)
    unfold tickSizeOperands
    rw [if_pos rfl]
    dsimp only
    rw [alookup_aset_ne _ _ _ _ (by decide : ("ticklen" : String) ≠ "tickratio"), ha]
  · refine ⟨rfl, rfl, ?_, ?_, ?_, ?_, rfl⟩
    · have h : getItem rc0 "xtick.minor.size" = .ok (.val (RVal.num (4 * (1/2)))) := rfl
      rw [h]
      norm_num
    · have h : getItem rc0 "ytick.minor.size" = .ok (.val (RVal.num (4 * (1/2)))) := rfl
      rw [h]
      norm_num
    · have h : getItem (setItem rc0 "tickratio" (RVal.num (1/4))).1 "xtick.minor.size"
          = .ok (.val (RVal.num (4 * (1/4)))) := rfl
      rw [h]
      norm_num
    · have h : getItem (setItem rc0 "tickratio" (RVal.num (1/4))).1 "ytick.minor.size"
          = .ok (.val (RVal.num (4 * (1/4)))) := rfl
      rw [h]
      norm_num

theorem claim_C2_witness :
    alookup (setItem rc0 "ticklen" (RVal.num 5)).1.rcParams "xtick.minor.size"
        = some (RVal.num (5 * (1/2))) ∧
    alookup (setItem rc0 "ticklen" (RVal.num 5)).1.rcParams "ytick.minor.size"
        = some (RVal.num (5 * (1/2))) :=
  claim_C2.1 rc0 5 (1/2) rfl rfl

/-- Setting a `linewidth`/`minorwidth` global whose width recomputation
yields the numeric operands `t`, `r` writes `t*r` to both minor-tick-width
keys of the external store and to `gridminor.linewidth` in the special
store, and nothing later in the call overwrites them. -/
theorem minor_width_after (σ : RcState) (key : String) (v : RVal) (t r : ℚ)
    (hkey : (key = "linewidth" || key = "minorwidth") = true)
    (hns : (key = "ticklen" || key = "tickratio") = false)
    (hres : resolveKey key = key) (hnc : key ≠ "cycle")
    (hsome : (alookup σ.rcGlobals key).isSome = true)
    (hops : tickWidthOperands {σ with rcGlobals := aset σ.rcGlobals key v} key v
        = Except.ok (RVal.num t, RVal.num r))
    (hchx : "xtick.minor.width" ∉ childrenOf key)
    (hchy : "ytick.minor.width" ∉ childrenOf key)
    (hchg : "gridminor.linewidth" ∉ childrenOf key) :
    alookup (setItem σ key v).1.rcParams "xtick.minor.width" = some (RVal.num (t * r)) ∧
    alookup (setItem σ key v).1.rcParams "ytick.minor.width" = some (RVal.num (t * r)) ∧
    alookup (setItem σ key v).1.rcSpecial "gridminor.linewidth" = some (RVal.num (t * r)) := by
  have heq : setItem σ key v = setGlobal σ key v := by
    unfold setItem
    rw [hres, if_neg hnc]
    unfold setCore
    rw [if_pos hsome]
  have hts : tickSize {σ with rcGlobals := aset σ.rcGlobals key v} key v
      = ({σ with rcGlobals := aset σ.rcGlobals key v}, none) := by
    unfold tickSize
    rw [hns]
    rfl
  have htw : tickWidth {σ with rcGlobals := aset σ.rcGlobals key v} key v
      = (⟨aset (aset σ.rcParams "xtick.minor.width" (RVal.num (t * r)))
             "ytick.minor.width" (RVal.num (t * r)),
          aset σ.rcSpecial "gridminor.linewidth" (RVal.num (t * r)),
          aset σ.rcGlobals key v, σ.flagInit⟩, none) := by
    unfold tickWidth
    rw [hkey, if_pos rfl, hops]
    rfl
  rw [heq]
  unfold setGlobal
  rw [hts]
  simp only [andThen]
  rw [htw]
  simp only [andThen]
  refine andThen_pres (fun τ0 =>
      alookup τ0.rcParams "xtick.minor.width" = some (RVal.num (t * r)) ∧
      alookup τ0.rcParams "ytick.minor.width" = some (RVal.num (t * r)) ∧
      alookup τ0.rcSpecial "gridminor.linewidth" = some (RVal.num (t * r)))
    _ _ ⟨?_, ?_, ?_⟩ ?_
  · rw [(propagate_preserve v "xtick.minor.width" (childrenOf key) _ hchx).1]
    dsimp only
    rw [alookup_aset_ne _ _ _ _ (by decide : ("xtick.minor.width" : String) ≠ "ytick.minor.width")]
    exact alookup_aset_self _ _ _
  · rw [(propagate_preserve v "ytick.minor.width" (childrenOf key) _ hchy).1]
    dsimp only
    exact alookup_aset_self _ _ _
  · rw [(propagate_preserve v "gridminor.linewidth" (childrenOf key) _ hchg).2]
    dsimp only
    exact alookup_aset_self _ _ _
  · intro τ hτ
    exact hτ

/-- C3: immediately after `set('linewidth', v)` or `set('minorwidth', v)`
with numeric values, the derived parameters `xtick.minor.width` and
`ytick.minor.width` in the external store and `gridminor.linewidth` in the
special store all equal the product of the current `linewidth` and
`minorwidth` globals, the just-set value being used for whichever of the two
was set. -/
theorem claim_C3 :
    (∀ (σ : RcState) (x b : ℚ),
      σ.rcGlobals.map Prod.fst = rcGlobalsT.map Prod.fst →
      alookup σ.rcGlobals "minorwidth" = some (RVal.num b) →
      alookup (setItem σ "linewidth" (RVal.num x)).1.rcParams "xtick.minor.width"
          = some (RVal.num (x * b)) ∧
      alookup (setItem σ "linewidth" (RVal.num x)).1.rcParams "ytick.minor.width"
          = some (RVal.num (x * b)) ∧
      alookup (setItem σ "linewidth" (RVal.num x)).1.rcSpecial "gridminor.linewidth"
          = some (RVal.num (x * b))) ∧
    (∀ (σ : RcState) (y a : ℚ),
      σ.rcGlobals.map Prod.fst = rcGlobalsT.map Prod.fst →
      alookup σ.rcGlobals "linewidth" = some (RVal.num a) →
      alookup (setItem σ "minorwidth" (RVal.num y)).1.rcParams "xtick.minor.width"
          = some (RVal.num (a * y)) ∧
      alookup (setItem σ "minorwidth" (RVal.num y)).1.rcParams "ytick.minor.width"
          = some (RVal.num (a * y)) ∧
      alookup (setItem σ "minorwidth" (RVal.num y)).1.rcSpecial "gridminor.linewidth"
          = some (RVal.num (a * y))) := by
  refine ⟨?_, ?_⟩
  · intro σ x b hkeys hb
    refine minor_width_after σ "linewidth" (RVal.num x) x b (by decide) (by decide) rfl (by decide)
      ((alookup_isSome_iff _ _).2 (by rw [hkeys]; decide)) ?_ (by decide) (by decide) (by decide)
    unfold tickWidthOperands
    rw [if_pos rfl]
    dsimp only
    rw [alookup_aset_ne _ _ _ _ (by decide : ("minorwidth" : String) ≠ "linewidth"), hb]
  · intro σ y a hkeys ha
    refine minor_width_after σ "minorwidth" (RVal.num y) a y (by decide) (by decide) rfl (by decide)
      ((alookup_isSome_iff _ _).2 (by rw [hkeys]; decide)) ?_ (by decide) (by decide) (by decide)
    unfold tickWidthOperands
    rw [if_neg (by decide : ¬("minorwidth" : String) = "linewidth")]
    dsimp only
    rw [alookup_aset_ne _ _ _ _ (by decide : ("linewidth" : String) ≠ "minorwidth"), ha]

theorem claim_C3_witness :
    alookup (setItem rc0 "linewidth" (RVal.num 1)).1.rcParams "xtick.minor.width"
        = some (RVal.num (1 * (4/5))) ∧
    alookup (setItem rc0 "linewidth" (RVal.num 1)).1.rcParams "ytick.minor.width"
        = some (RVal.num (1 * (4/5))) ∧
    alookup (setItem rc0 "linewidth" (RVal.num 1)).1.rcSpecial "gridminor.linewidth"
        = some (RVal.num (1 * (4/5))) :=
  claim_C3.1 rc0 1 (4/5) rfl rfl

/-- `true` iff the result is a failure whose error is not the `UnknownKey`
kind. -/
def failsOtherThanUnknown (r : Except Err GetRes) : Bool :=
  match r with
  | .error e => !e.isUnknownKey
  | .ok _ => false

/-- C10: `__getitem__` splices the queried key into a regular expression, so
its dots match any character; on an exact-pattern match it indexes the
matching store with the *original* key.  For the freshly constructed
registry, `get('font.sans.serif')` regex-matches the stored category
`font.sans-serif` (dot matches `-`) and then evaluates
`rcParams['font.sans.serif']`, a `KeyError` (a missing-key lookup error,
not the `UnknownKey` `ValueError`); likewise `get('savefig.pad.inches')`
against `savefig.pad_inches`.  The last conjuncts pin down that the key is
nonempty, non-global and absent from both stores, so the failure is neither
a value nor `UnknownKey`. -/
theorem claim_C10 :
    getItem rc0 "font.sans.serif" = .error (.keyError "font.sans.serif") ∧
    getItem rc0 "savefig.pad.inches" = .error (.keyError "savefig.pad.inches") ∧
    (Err.keyError "font.sans.serif").isUnknownKey = false ∧
    alookup rc0.rcParams "font.sans.serif" = none ∧
    alookup rc0.rcSpecial "font.sans.serif" = none ∧
    alookup rc0.rcGlobals "font.sans.serif" = none ∧
    ("font.sans.serif" : String) ≠ "" :=
  ⟨rfl, rfl, rfl, rfl, rfl, rfl, by decide⟩

/-! ### Error classification for `set` and `get` -/

theorem rmul_err (a b : RVal) (e : Err) (h : rmul a b = .error e) : e = .typeError := by
  cases a <;> cases b <;> simp [rmul] at h <;> simp_all

theorem aset_keys_mono (m : AList) (k k' : String) (v : RVal)
    (h : k' ∈ m.map Prod.fst) : k' ∈ (aset m k v).map Prod.fst := by
  induction m with
  | nil => simp at h
  | cons p t ih =>
    by_cases hp : p.1 = k
    · simpa [aset, hp] using h
    · simp only [List.map_cons, List.mem_cons] at h
      rcases h with h | h
      · simp [aset, hp, h]
      · simp [aset, hp, ih h]

theorem tickSizeOperands_no_err (σ : RcState) (k : String) (v : RVal) (e : Err)
    (hl : "ticklen" ∈ σ.rcGlobals.map Prod.fst)
    (hr : "tickratio" ∈ σ.rcGlobals.map Prod.fst)
    (h : tickSizeOperands σ k v = .error e) : False := by
  unfold tickSizeOperands at h
  split at h
  · cases hx : alookup σ.rcGlobals "ticklen" with
    | none => exact absurd ((alookup_isSome_iff _ _).2 hl) (by simp [hx])
    | some t => rw [hx] at h; simp at h
  · cases hx : alookup σ.rcGlobals "tickratio" with
    | none => exact absurd ((alookup_isSome_iff _ _).2 hr) (by simp [hx])
    | some r => rw [hx] at h; simp at h

theorem tickWidthOperands_no_err (σ : RcState) (k : String) (v : RVal) (e : Err)
    (hl : "linewidth" ∈ σ.rcGlobals.map Prod.fst)
    (hr : "minorwidth" ∈ σ.rcGlobals.map Prod.fst)
    (h : tickWidthOperands σ k v = .error e) : False := by
  unfold tickWidthOperands at h
  split at h
  · cases hx : alookup σ.rcGlobals "minorwidth" with
    | none => exact absurd ((alookup_isSome_iff _ _).2 hr) (by simp [hx])
    | some r => rw [hx] at h; simp at h
  · cases hx : alookup σ.rcGlobals "linewidth" with
    | none => exact absurd ((alookup_isSome_iff _ _).2 hl) (by simp [hx])
    | some t => rw [hx] at h; simp at h

theorem tickSize_err (σ : RcState) (k : String) (v : RVal) (e : Err)
    (hl : "ticklen" ∈ σ.rcGlobals.map Prod.fst)
    (hr : "tickratio" ∈ σ.rcGlobals.map Prod.fst)
    (he : (tickSize σ k v).2 = some e) : e = .typeError := by
  unfold tickSize at he
  split at he
  · cases hops : tickSizeOperands σ k v with
    | error e' => exact (tickSizeOperands_no_err σ k v e' hl hr hops).elim
    | ok p =>
      rw [hops] at he
      obtain ⟨t', r'⟩ := p
      simp only at he
      cases hm : rmul t' r' with
      | error e' =>
        rw [hm] at he
        have h1 : e' = e := Option.some.inj he
        rw [← h1]
        exact rmul_err _ _ _ hm
      | ok p' =>
        rw [hm] at he
        simp at he
  · simp at he

theorem tickWidth_err (σ : RcState) (k : String) (v : RVal) (e : Err)
    (hl : "linewidth" ∈ σ.rcGlobals.map Prod.fst)
    (hr : "minorwidth" ∈ σ.rcGlobals.map Prod.fst)
    (he : (tickWidth σ k v).2 = some e) : e = .typeError := by
  unfold tickWidth at he
  split at he
  · cases hops : tickWidthOperands σ k v with
    | error e' => exact (tickWidthOperands_no_err σ k v e' hl hr hops).elim
    | ok p =>
      rw [hops] at he
      obtain ⟨t', r'⟩ := p
      simp only at he
      cases hm : rmul t' r' with
      | error e' =>
        rw [hm] at he
        have h1 : e' = e := Option.some.inj he
        rw [← h1]
        exact rmul_err _ _ _ hm
      | ok p' =>
        rw [hm] at he
        simp at he
  · simp at he

theorem propagate_err (v : RVal) :
    ∀ (l : List String) (σ : RcState) (e : Err),
      (propagate σ v l).2 = some e → e.isUnknownKey = true := by
  intro l
  induction l with
  | nil => intro σ e he; simp [propagate] at he
  | cons n t ih =>
    intro σ e he
    simp only [propagate] at he
    by_cases hnp : (alookup σ.rcParams n).isSome = true
    · rw [if_pos hnp] at he
      exact ih _ _ he
    · rw [if_neg hnp] at he
      by_cases hns : (alookup σ.rcSpecial n).isSome = true
      · rw [if_pos hns] at he
        exact ih _ _ he
      · rw [if_neg hns] at he
        rw [← Option.some.inj he]
        rfl

theorem directSet_err (σ : RcState) (k : String) (v : RVal) (e : Err)
    (he : (directSet σ k v).2 = some e) : e.isUnknownKey = true := by
  unfold directSet at he
  split at he
  · simp at he
  · split at he
    · simp at he
    · rw [← Option.some.inj he]
      rfl

theorem batchGo_err (key : String) :
    ∀ (l : List (String × RVal)) (σ : RcState) (e : Err),
      (batchGo key σ l).2 = some e → e.isUnknownKey = true := by
  intro l
  induction l with
  | nil => intro σ e he; simp [batchGo] at he
  | cons p t ih =>
    intro σ e he
    obtain ⟨n, v⟩ := p
    simp only [batchGo] at he
    by_cases hnp : (alookup σ.rcParams (key ++ "." ++ n)).isSome = true
    · rw [if_pos hnp] at he
      exact ih _ _ he
    · rw [if_neg hnp] at he
      by_cases hns : (alookup σ.rcSpecial (key ++ "." ++ n)).isSome = true
      · rw [if_pos hns] at he
        exact ih _ _ he
      · rw [if_neg hns] at he
        rw [← Option.some.inj he]
        rfl

theorem setGlobal_err (σ : RcState) (k : String) (v : RVal) (e : Err)
    (hkeys : σ.rcGlobals.map Prod.fst = rcGlobalsT.map Prod.fst)
    (he : (setGlobal σ k v).2 = some e) : e.isUnknownKey = true ∨ e = .typeError := by
  have hmem : ∀ g ∈ rcGlobalsT.map Prod.fst,
      g ∈ (aset σ.rcGlobals k v).map Prod.fst := by
    intro g hg
    exact aset_keys_mono _ _ _ _ (by rw [hkeys]; exact hg)
  unfold setGlobal at he
  cases h1 : tickSize {σ with rcGlobals := aset σ.rcGlobals k v} k v with
  | mk σb e1 =>
    rw [h1] at he
    cases e1 with
    | some e1 =>
      simp only [andThen] at he
      right
      rw [← Option.some.inj he]
      exact tickSize_err _ k v e1 (hmem "ticklen" (by decide)) (hmem "tickratio" (by decide))
        (by rw [h1])
    | none =>
      simp only [andThen] at he
      have hgb : σb.rcGlobals = aset σ.rcGlobals k v := by
        have := tickSize_rcGlobals {σ with rcGlobals := aset σ.rcGlobals k v} k v
        rw [h1] at this
        exact this
      cases h2 : tickWidth σb k v with
      | mk σc e2 =>
        rw [h2] at he
        cases e2 with
        | some e2 =>
          simp only [andThen] at he
          right
          rw [← Option.some.inj he]
          refine tickWidth_err _ k v e2 ?_ ?_ (by rw [h2])
          · rw [hgb]
            exact hmem "linewidth" (by decide)
          · rw [hgb]
            exact hmem "minorwidth" (by decide)
        | none =>
          simp only [andThen] at he
          cases h3 : propagate σc v (childrenOf k) with
          | mk σd e3 =>
            rw [h3] at he
            cases e3 with
            | some e3 =>
              simp only [andThen] at he
              left
              rw [← Option.some.inj he]
              exact propagate_err v (childrenOf k) σc e3 (by rw [h3])
            | none => simp [andThen] at he

theorem setCore_err (σ : RcState) (k : String) (v : RVal) (e : Err)
    (hkeys : σ.rcGlobals.map Prod.fst = rcGlobalsT.map Prod.fst)
    (he : (setCore σ k v).2 = some e) : e.isUnknownKey = true ∨ e = .typeError := by
  unfold setCore at he
  split at he
  · exact setGlobal_err σ k v e hkeys he
  · split at he
    · exact Or.inl (batchGo_err k _ σ e he)
    all_goals exact Or.inl (directSet_err σ k v e he)

theorem setItem_err (σ : RcState) (k : String) (v : RVal) (e : Err)
    (hkeys : σ.rcGlobals.map Prod.fst = rcGlobalsT.map Prod.fst)
    (he : (setItem σ k v).2 = some e) : e.isUnknownKey = true ∨ e = .typeError := by
  unfold setItem at he
  split at he
  · cases h1 : setCore σ (resolveKey "axes.prop_cycle") (RVal.cycler (RVal.str "colorblind")) with
    | mk σ₁ e1 =>
      rw [h1] at he
      cases e1 with
      | some e1 =>
        simp only [andThen] at he
        rw [← Option.some.inj he]
        exact setCore_err σ _ _ e1 hkeys (by rw [h1])
      | none =>
        simp only [andThen] at he
        have hk1 : σ₁.rcGlobals.map Prod.fst = rcGlobalsT.map Prod.fst := by
          have := setCore_globals_keys σ (resolveKey "axes.prop_cycle")
            (RVal.cycler (RVal.str "colorblind"))
          rw [h1] at this
          dsimp only at this
          rw [this]
          exact hkeys
        cases h2 : setCore σ₁ (resolveKey "axes.prop_cycle") (RVal.cycler v) with
        | mk σ₂ e2 =>
          rw [h2] at he
          cases e2 with
          | some e2 =>
            simp only [andThen] at he
            rw [← Option.some.inj he]
            exact setCore_err σ₁ _ _ e2 hk1 (by rw [h2])
          | none => simp [andThen] at he
  · exact setCore_err σ _ v e hkeys he

theorem getItem_err (σ : RcState) (k : String) (e : Err)
    (h : getItem σ k = .error e) : e.isUnknownKey = true ∨ ∃ s, e = .keyError s := by
  unfold getItem at h
  split at h
  · simp at h
  · split at h
    · simp at h
    · split at h
      · simp at h
      · right
        exact ⟨k, (Except.error.inj h).symm⟩
      · split at h
        · simp at h
        · right
          exact ⟨k, (Except.error.inj h).symm⟩
        · split at h
          · left
            rw [← Except.error.inj h]
            rfl
          · simp at h

/-- Counterexample to C7 as stated.  C7 claims `UnknownKey` is the *single*
error kind for all key-resolution failures in `get` and `set`; but on the
freshly constructed registry, `get('font.sans.serif')` — a nonempty,
non-global key — fails with a `KeyError` (the exact-match regex hits
`font.sans-serif`, and the store is then indexed with the original key),
which is not of the `UnknownKey` kind.  So `get` has a key-resolution
failure of a second kind at this concrete input. -/
theorem claim_C7_counterexample :
    failsOtherThanUnknown (getItem rc0 "font.sans.serif") = true := rfl

/-- C7 (amended): `get('not.a.real.key')` and `set('also.fake', 1)` fail
with `UnknownKey` on the freshly constructed registry (first two conjuncts).
`UnknownKey` covers every key-resolution failure of `set` — any exception a
`set` call raises (on a state whose instance global table has the static
global keys) is either of the `UnknownKey` kind or the `TypeError` from the
derived-value arithmetic, never a missing-key `KeyError` (third conjunct) —
and `get`'s zero-match scan failure is `UnknownKey`, but `get` can
additionally fail with a `KeyError` when the exact-match regex matches a
stored category different from the queried key (fourth conjunct; the
amendment forced by `claim_C7_counterexample`). -/
theorem claim_C7 :
    getItem rc0 "not.a.real.key" = .error (.unknownKey "not.a.real.key") ∧
    (setItem rc0 "also.fake" (RVal.num 1)).2 = some (.unknownKey "also.fake") ∧
    (∀ (σ : RcState) (k : String) (v : RVal) (e : Err),
      σ.rcGlobals.map Prod.fst = rcGlobalsT.map Prod.fst →
      (setItem σ k v).2 = some e → e.isUnknownKey = true ∨ e = .typeError) ∧
    (∀ (σ : RcState) (k : String) (e : Err),
      getItem σ k = .error e → e.isUnknownKey = true ∨ ∃ s, e = .keyError s) := by
  refine ⟨rfl, rfl, ?_, ?_⟩
  · intro σ k v e hkeys he
    exact setItem_err σ k v e hkeys he
  · intro σ k e h
    exact getItem_err σ k e h

theorem claim_C7_witness :
    (Err.unknownKey "also.fake").isUnknownKey = true ∨ Err.unknownKey "also.fake" = Err.typeError :=
  claim_C7.2.2.1 rc0 "also.fake" (RVal.num 1) (Err.unknownKey "also.fake") rfl claim_C7.2.1

/-- The batch loop on `m₁ ++ (s,w) :: m₂`, when every composed key of `m₁`
exists in a store and the composed key of `s` exists in neither: it fails
with the batch `UnknownKey` error naming the composed key and the category,
keys outside `m₁`'s composed keys are untouched, and every `m₁` write
remains applied (no rollback). -/
theorem batch_partial (key s : String) (w : RVal) (m₂ : List (String × RVal)) :
    ∀ (m₁ : List (String × RVal)) (σ : RcState),
      (∀ p ∈ m₁, (alookup σ.rcParams (key ++ "." ++ p.1)).isSome = true ∨
                 (alookup σ.rcSpecial (key ++ "." ++ p.1)).isSome = true) →
      alookup σ.rcParams (key ++ "." ++ s) = none →
      alookup σ.rcSpecial (key ++ "." ++ s) = none →
      (m₁.map (fun p => key ++ "." ++ p.1)).Nodup →
      (batchGo key σ (m₁ ++ (s, w) :: m₂)).2 = some (.unknownKeyFor (key ++ "." ++ s) key) ∧
      (∀ k', k' ∉ m₁.map (fun p => key ++ "." ++ p.1) →
        alookup (batchGo key σ (m₁ ++ (s, w) :: m₂)).1.rcParams k' = alookup σ.rcParams k' ∧
        alookup (batchGo key σ (m₁ ++ (s, w) :: m₂)).1.rcSpecial k' = alookup σ.rcSpecial k') ∧
      (∀ p ∈ m₁, lookup2 (batchGo key σ (m₁ ++ (s, w) :: m₂)).1.rcParams
          (batchGo key σ (m₁ ++ (s, w) :: m₂)).1.rcSpecial (key ++ "." ++ p.1) = some p.2) := by
  intro m₁
  induction m₁ with
  | nil =>
    intro σ h₁ hfp hfs hnd
    have hred : batchGo key σ ([] ++ (s, w) :: m₂) = (σ, some (.unknownKeyFor (key ++ "." ++ s) key)) := by
      simp only [List.nil_append, batchGo]
      rw [if_neg (by simp [hfp]), if_neg (by simp [hfs])]
    rw [hred]
    refine ⟨rfl, fun k' _ => ⟨rfl, rfl⟩, fun p hp => by simp at hp⟩
  | cons q t ih =>
    intro σ h₁ hfp hfs hnd
    obtain ⟨n, v⟩ := q
    have hhead := h₁ (n, v) (by simp)
    have hns : key ++ "." ++ n ≠ key ++ "." ++ s := by
      intro hh
      rcases hhead with hc | hc
      · rw [hh, hfp] at hc
        simp at hc
      · rw [hh, hfs] at hc
        simp at hc
    simp only [List.map_cons] at hnd
    have hndc := List.nodup_cons.1 hnd
    by_cases hp : (alookup σ.rcParams (key ++ "." ++ n)).isSome = true
    · have hred : batchGo key σ (((n, v) :: t) ++ (s, w) :: m₂)
          = batchGo key {σ with rcParams := aset σ.rcParams (key ++ "." ++ n) v}
              (t ++ (s, w) :: m₂) := by
        simp only [List.cons_append, batchGo]
        rw [if_pos hp]
        rfl
      have hmemn : (key ++ "." ++ n) ∈ σ.rcParams.map Prod.fst := (alookup_isSome_iff _ _).1 hp
      have hkeysP : (aset σ.rcParams (key ++ "." ++ n) v).map Prod.fst
          = σ.rcParams.map Prod.fst := aset_keys_of_mem _ _ _ hmemn
      have h₁' : ∀ p ∈ t,
          (alookup (aset σ.rcParams (key ++ "." ++ n) v) (key ++ "." ++ p.1)).isSome = true ∨
          (alookup σ.rcSpecial (key ++ "." ++ p.1)).isSome = true := by
        intro p hpt
        rcases h₁ p (by simp [hpt]) with hc | hc
        · left
          rw [alookup_isSome_iff] at hc ⊢
          rw [hkeysP]
          exact hc
        · right
          exact hc
      have hfp' : alookup (aset σ.rcParams (key ++ "." ++ n) v) (key ++ "." ++ s) = none := by
        rw [alookup_aset_ne _ _ _ _ (fun hh => hns hh.symm)]
        exact hfp
      rcases ih {σ with rcParams := aset σ.rcParams (key ++ "." ++ n) v} h₁' hfp' hfs hndc.2
        with ⟨c1, c2, c3⟩
      rw [hred]
      refine ⟨c1, ?_, ?_⟩
      · intro k' hk'
        simp only [List.map_cons, List.mem_cons, not_or] at hk'
        rcases c2 k' hk'.2 with ⟨d1, d2⟩
        refine ⟨?_, ?_⟩
        · rw [d1]
          exact alookup_aset_ne _ _ _ _ hk'.1
        · rw [d2]
      · intro p hpmem
        rcases List.mem_cons.1 hpmem with hh | hh
        · subst hh
          rcases c2 (key ++ "." ++ n) hndc.1 with ⟨d1, d2⟩
          unfold lookup2
          rw [d1, d2]
          dsimp only
          rw [alookup_aset_self]
        · exact c3 p hh
    · have hs : (alookup σ.rcSpecial (key ++ "." ++ n)).isSome = true := hhead.resolve_left hp
      have hred : batchGo key σ (((n, v) :: t) ++ (s, w) :: m₂)
          = batchGo key {σ with rcSpecial := aset σ.rcSpecial (key ++ "." ++ n) v}
              (t ++ (s, w) :: m₂) := by
        simp only [List.cons_append, batchGo]
        rw [if_neg hp, if_pos hs]
        rfl
      have hmemn : (key ++ "." ++ n) ∈ σ.rcSpecial.map Prod.fst := (alookup_isSome_iff _ _).1 hs
      have hkeysS : (aset σ.rcSpecial (key ++ "." ++ n) v).map Prod.fst
          = σ.rcSpecial.map Prod.fst := aset_keys_of_mem _ _ _ hmemn
      have h₁' : ∀ p ∈ t,
          (alookup σ.rcParams (key ++ "." ++ p.1)).isSome = true ∨
          (alookup (aset σ.rcSpecial (key ++ "." ++ n) v) (key ++ "." ++ p.1)).isSome = true := by
        intro p hpt
        rcases h₁ p (by simp [hpt]) with hc | hc
        · left
          exact hc
        · right
          rw [alookup_isSome_iff] at hc ⊢
          rw [hkeysS]
          exact hc
      have hfs' : alookup (aset σ.rcSpecial (key ++ "." ++ n) v) (key ++ "." ++ s) = none := by
        rw [alookup_aset_ne _ _ _ _ (fun hh => hns hh.symm)]
        exact hfs
      rcases ih {σ with rcSpecial := aset σ.rcSpecial (key ++ "." ++ n) v} h₁' hfp hfs' hndc.2
        with ⟨c1, c2, c3⟩
      rw [hred]
      refine ⟨c1, ?_, ?_⟩
      · intro k' hk'
        simp only [List.map_cons, List.mem_cons, not_or] at hk'
        rcases c2 k' hk'.2 with ⟨d1, d2⟩
        refine ⟨?_, ?_⟩
        · rw [d1]
        · rw [d2]
          exact alookup_aset_ne _ _ _ _ hk'.1
      · intro p hpmem
        rcases List.mem_cons.1 hpmem with hh | hh
        · subst hh
          rcases c2 (key ++ "." ++ n) hndc.1 with ⟨d1, d2⟩
          unfold lookup2
          rw [d1, d2]
          dsimp only
          cases hkp : alookup σ.rcParams (key ++ "." ++ n) with
          | some x => exact absurd hp (by simp [hkp])
          | none => rw [alookup_aset_self]
        · exact c3 p hh

/-- C8: `set(key, m)` with a dict value applies each entry in iteration
order as a write to the composed key `'key.sub'` (external store first, else
special store, both via in-place update); if a later entry's composed key
exists in neither store, the call fails with the batch `UnknownKey` error
naming that composed key and the category — but every earlier entry's write
in the same batch remains applied, with no rollback.  The hypotheses place
`key` on the batch branch (not aliased, not a global of the instance table,
not `'cycle'`) and make the composed keys of the earlier entries distinct
and present. -/
theorem claim_C8 (σ : RcState) (key s : String) (w : RVal)
    (m₁ m₂ : List (String × RVal))
    (hko : childOwner key = none) (hkc : key ≠ "cycle")
    (hkg : alookup σ.rcGlobals key = none)
    (h₁ : ∀ p ∈ m₁, (alookup σ.rcParams (key ++ "." ++ p.1)).isSome = true ∨
                    (alookup σ.rcSpecial (key ++ "." ++ p.1)).isSome = true)
    (hfp : alookup σ.rcParams (key ++ "." ++ s) = none)
    (hfs : alookup σ.rcSpecial (key ++ "." ++ s) = none)
    (hnd : (m₁.map (fun p => key ++ "." ++ p.1)).Nodup) :
    (setItem σ key (RVal.rdict (m₁ ++ (s, w) :: m₂))).2
        = some (.unknownKeyFor (key ++ "." ++ s) key) ∧
    ∀ p ∈ m₁, lookup2 (setItem σ key (RVal.rdict (m₁ ++ (s, w) :: m₂))).1.rcParams
        (setItem σ key (RVal.rdict (m₁ ++ (s, w) :: m₂))).1.rcSpecial (key ++ "." ++ p.1)
        = some p.2 := by
  have hres : resolveKey key = key := by simp [resolveKey, hko]
  have heq : setItem σ key (RVal.rdict (m₁ ++ (s, w) :: m₂))
      = batchGo key σ (m₁ ++ (s, w) :: m₂) := by
    unfold setItem
    rw [hres, if_neg hkc]
    unfold setCore
    rw [if_neg (by simp [hkg])]
  rcases batch_partial key s w m₂ m₁ σ h₁ hfp hfs hnd with ⟨c1, c2, c3⟩
  rw [heq]
  exact ⟨c1, c3⟩

def sW8 : RcState :=
  ⟨[("fig.one", RVal.num 1)], [], rcGlobalsT, true⟩

theorem claim_C8_witness :
    (setItem sW8 "fig" (RVal.rdict [("one", RVal.num 5), ("two", RVal.num 9)])).2
        = some (.unknownKeyFor ("fig" ++ "." ++ "two") "fig") ∧
    lookup2 (setItem sW8 "fig" (RVal.rdict [("one", RVal.num 5), ("two", RVal.num 9)])).1.rcParams
        (setItem sW8 "fig" (RVal.rdict [("one", RVal.num 5), ("two", RVal.num 9)])).1.rcSpecial
        ("fig" ++ "." ++ "one") = some (RVal.num 5) := by
  have h := claim_C8 sW8 "fig" "two" (RVal.num 9) [("one", RVal.num 5)] []
    (by decide) (by decide) rfl
    (by
      intro p hp
      have hp' : p ∈ [("one", RVal.num 5)] := hp
      fin_cases hp'
      exact Or.inl (by decide))
    rfl rfl (by simp)
  exact ⟨h.1, h.2 ("one", RVal.num 5) (by simp)⟩

end Rcmod
